import Mathlib

/-!
Verification of the voice-activity detection, interruption monitoring and
audio-normalization core of the plugin-livekit repository, shallowly embedded
in Lean 4.

Conventions of the embedding:
* A Node `Buffer` is a `List ℕ` of byte values (each byte `< 256`; readers
  reduce mod 256 for totality).
* `Date.now()` timestamps are explicit `ℕ` millisecond arguments threaded
  through each operation.
* A `Map<participantId, T>` is projected to the single participant all the
  claims quantify over: every map operation in the source touches only the
  entry of the participant given as argument, so the per-participant record
  is the faithful projection.
* The source compares `Math.sqrt(sumSquares / sampleCount)` against
  nonnegative thresholds; the embedding keeps the radicand (a rational) and
  compares against the squared threshold, which is equivalent for the
  nonnegative thresholds the configuration carries (`sqrt x > t ↔ x > t²`
  for `t ≥ 0`).
* `setTimeout`/`clearTimeout` become an `Option ℕ` deadline in the state; a
  timer-fire event acts only when its time equals the stored deadline
  (a cleared timer never fires, a pending timer fires at its deadline).
* A `RangeError` thrown by `Buffer.readInt16LE` (read past the end of the
  buffer) is `none` of an `Option` result.
-/

/-- `Buffer.readInt16LE` at a byte offset: little-endian signed 16-bit value
from two consecutive bytes (bytes reduced mod 256 for totality). -/
def int16LE (lo hi : ℕ) : ℤ :=
  let v : ℤ := (lo % 256 : ℕ) + 256 * (hi % 256 : ℕ)
  if 32768 ≤ v then v - 65536 else v

/-- The loop `for (i = 0; i < buffer.length; i += 2) { s = readInt16LE(i);
sumSquares += (s/32768)^2 }` of `VoiceDetection.calculateRMS` (and,
byte-identical, of `AudioMonitor.calculateVolume`). A trailing odd byte makes
the final `readInt16LE(length - 1)` read one byte past the end of the buffer:
that `RangeError` is `none`. -/
def sumSquaresNorm : List ℕ → Option ℚ
  | [] => some 0
  | [_] => none
  | lo :: hi :: rest =>
    (sumSquaresNorm rest).map (fun s => ((int16LE lo hi : ℚ) / 32768) ^ 2 + s)

/-- Sample-count divisor `Math.floor(buffer.length / 2)` used by both RMS
routines. -/
def rmsDivisor (buffer : List ℕ) : ℕ := buffer.length / 2

/-- `VoiceDetection.calculateRMS`, kept as the radicand of the final
`Math.sqrt` (see module conventions): `0` for buffers shorter than one
sample, otherwise `sumSquares / sampleCount`; `none` models the
`RangeError` on an odd-length buffer of length ≥ 3. -/
def calculateRMSsq (buffer : List ℕ) : Option ℚ :=
  if buffer.length < 2 then some 0
  else (sumSquaresNorm buffer).map (fun s => s / (rmsDivisor buffer : ℚ))

/-- `AudioMonitor.calculateVolume`: byte-identical body to
`VoiceDetection.calculateRMS` (same guard, same loop, same divisor). -/
def calculateVolumeSq (buffer : List ℕ) : Option ℚ :=
  if buffer.length < 2 then some 0
  else (sumSquaresNorm buffer).map (fun s => s / (rmsDivisor buffer : ℚ))

/-- `VoiceDetectionConfig` (thresholds as rationals, durations in ms). -/
structure VoiceDetectionConfig where
  silenceThreshold : ℚ
  speechThreshold : ℚ
  minSpeechDuration : ℕ
  maxSpeechDuration : ℕ
  silenceFramesRequired : ℕ
  speechFramesRequired : ℕ
  debounceThreshold : ℕ
  frameSize : ℕ
  sampleRate : ℕ
deriving Repr, DecidableEq

/-- The constructor defaults of `VoiceDetection`. -/
def defaultVDConfig : VoiceDetectionConfig :=
  { silenceThreshold := 1/100
    speechThreshold := 1/20
    minSpeechDuration := 500
    maxSpeechDuration := 10000
    silenceFramesRequired := 20
    speechFramesRequired := 3
    debounceThreshold := 1500
    frameSize := 160
    sampleRate := 16000 }

/-- `VoiceActivityState`: the per-participant record of `VoiceDetection`. -/
structure VoiceActivityState where
  isSpeaking : Bool
  speechStartTime : ℕ
  speechEndTime : ℕ
  buffers : List (List ℕ)
  totalLength : ℕ
  lastActivity : ℕ
  speechFrameCount : ℕ
  silenceFrameCount : ℕ
deriving Repr, DecidableEq

/-- `VoiceDetection.initializeParticipantState` (source name
`initializeParticipantState`). -/
def initParticipantState (now : ℕ) : VoiceActivityState :=
  { isSpeaking := false
    speechStartTime := 0
    speechEndTime := 0
    buffers := []
    totalLength := 0
    lastActivity := now
    speechFrameCount := 0
    silenceFrameCount := 0 }

/-- `VoiceDetection.resetParticipantState` (note: `lastActivity` is not
touched by the source's reset). -/
def resetParticipantState (s : VoiceActivityState) : VoiceActivityState :=
  { s with
    isSpeaking := false
    speechStartTime := 0
    speechEndTime := 0
    buffers := []
    totalLength := 0
    speechFrameCount := 0
    silenceFrameCount := 0 }

/-- The fixed memory ceiling `10 * 1024 * 1024` of
`VoiceDetection.manageBufferSize`. -/
def maxBufferSize : ℕ := 10 * 1024 * 1024

/-- The `while (totalLength > maxBufferSize && buffers.length > 1) shift()`
loop of `VoiceDetection.manageBufferSize`. -/
def manageBufferLoop : List (List ℕ) → ℕ → (List (List ℕ)) × ℕ
  | [], total => ([], total)
  | [b], total => ([b], total)
  | b :: b' :: rest, total =>
    if maxBufferSize < total then manageBufferLoop (b' :: rest) (total - b.length)
    else (b :: b' :: rest, total)

/-- `VoiceDetection.manageBufferSize`. -/
def manageBufferSize (s : VoiceActivityState) : VoiceActivityState :=
  let r := manageBufferLoop s.buffers s.totalLength
  { s with buffers := r.1, totalLength := r.2 }

/-- `VoiceDetection.isValidAudioBuffer`. `Buffer.toString('ascii', a, b)`
masks each byte to 7 bits, hence the `% 128` on the header comparison. -/
def isValidAudioBuffer (buffer : List ℕ) : Bool :=
  if buffer.length < 1024 then false
  else if 12 < buffer.length ∧
      ((buffer.take 4).map (· % 128)) = [82, 73, 70, 70] then
    -- 'RIFF' at offset 0: check 'WAVE' at bytes 8..12
    decide ((((buffer.drop 8).take 4).map (· % 128)) = [87, 65, 86, 69])
  else decide (2048 ≤ buffer.length)

/-- Events emitted by `VoiceDetection` (the `silenceDetected` event of the
source's event interface is never emitted by any code path and is omitted). -/
inductive VDEmit where
  | speechStarted : VDEmit
  | speechEnded (buffer : List ℕ) : VDEmit
  | speechTurn (buffer : List ℕ) (duration : ℕ) : VDEmit
deriving Repr, DecidableEq

/-- `VoiceDetection.processSpeechTurn`: duration/min check, empty-buffer
check, concatenation, validity check, then `speechEnded` + `speechTurn` and a
state reset. -/
def processSpeechTurnVD (cfg : VoiceDetectionConfig) (now : ℕ)
    (s : VoiceActivityState) : VoiceActivityState × List VDEmit :=
  let speechDuration := now - s.speechStartTime
  if speechDuration < cfg.minSpeechDuration then (resetParticipantState s, [])
  else if s.buffers = [] ∨ s.totalLength = 0 then (resetParticipantState s, [])
  else
    let completeAudioBuffer := s.buffers.flatten
    if ¬ isValidAudioBuffer completeAudioBuffer then (resetParticipantState s, [])
    else
      (resetParticipantState { s with speechEndTime := now },
        [VDEmit.speechEnded completeAudioBuffer,
         VDEmit.speechTurn completeAudioBuffer speechDuration])

/-- The whole-detector state for one participant: the `participantStates`
entry, the `debounceTimers` entry (as the scheduled fire time) and the
`processingFlags` entry (`Map.get` of an absent flag is falsy, hence plain
`Bool`). -/
structure VDState where
  pstate : Option VoiceActivityState
  debounceDeadline : Option ℕ
  processing : Bool
deriving Repr, DecidableEq

/-- Fresh detector: all maps empty. -/
def initialVDState : VDState :=
  { pstate := none, debounceDeadline := none, processing := false }

/-- `VoiceDetection.handleSpeechStart`: no-op under the processing flag,
otherwise mark speaking, stamp `speechStartTime`, cancel any pending
debounce timer, reset buffers and counters, emit `speechStarted`. -/
def handleSpeechStart (now : ℕ) (st : VDState) (s : VoiceActivityState) :
    VDState × List VDEmit :=
  if st.processing then ({ st with pstate := some s }, [])
  else
    ({ pstate := some { s with
          isSpeaking := true
          speechStartTime := now
          buffers := []
          totalLength := 0
          speechFrameCount := 0
          silenceFrameCount := 0 }
       debounceDeadline := none
       processing := st.processing },
     [VDEmit.speechStarted])

/-- `VoiceDetection.setupDebouncedProcessing`: clear any existing timer;
under the processing flag reset the state and schedule nothing; otherwise
schedule the finalize at `now + debounceThreshold`. -/
def setupDebouncedProcessing (cfg : VoiceDetectionConfig) (now : ℕ)
    (st : VDState) (s : VoiceActivityState) : VDState × List VDEmit :=
  if st.processing then
    ({ pstate := some (resetParticipantState s)
       debounceDeadline := none
       processing := st.processing }, [])
  else
    ({ pstate := some s
       debounceDeadline := some (now + cfg.debounceThreshold)
       processing := st.processing }, [])

/-- `VoiceDetection.handlePotentialSpeechEnd`: mark not speaking, then set up
the debounced processing. -/
def handlePotentialSpeechEnd (cfg : VoiceDetectionConfig) (now : ℕ)
    (st : VDState) (s : VoiceActivityState) : VDState × List VDEmit :=
  setupDebouncedProcessing cfg now st { s with isSpeaking := false }

/-- The three-way branch closing `VoiceDetection.processAudioFrame` over
the counted state `s3`: speech start, potential speech end (debounce
scheduling), forced max-duration cutoff, or plain continuation. -/
def vdDispatch (cfg : VoiceDetectionConfig) (now : ℕ) (st0 : VDState)
    (s3 : VoiceActivityState) : VDState × List VDEmit :=
  if ¬ s3.isSpeaking ∧ cfg.speechFramesRequired ≤ s3.speechFrameCount then
    handleSpeechStart now st0 s3
  else if s3.isSpeaking ∧ cfg.silenceFramesRequired ≤ s3.silenceFrameCount then
    handlePotentialSpeechEnd cfg now st0 s3
  else if s3.isSpeaking ∧ cfg.maxSpeechDuration < now - s3.speechStartTime then
    let r := processSpeechTurnVD cfg now s3
    ({ st0 with pstate := some r.1 }, r.2)
  else
    ({ st0 with pstate := some s3 }, [])

/-- `VoiceDetection.processAudioFrame`. Returns `none` when
`calculateRMS` throws (odd buffer of length ≥ 3). The participant state is
created on first frame; classification, buffering, ceiling management,
counter updates, then the three-way branch (speech start / potential end /
max-duration cutoff, `vdDispatch`). -/
def processAudioFrame (cfg : VoiceDetectionConfig) (now : ℕ) (st : VDState)
    (audioBuffer : List ℕ) : Option (VDState × List VDEmit) :=
  let s0 := st.pstate.getD (initParticipantState now)
  let p0 := if st.pstate.isSome then st.processing else false
  let st0 : VDState :=
    { pstate := some s0, debounceDeadline := st.debounceDeadline, processing := p0 }
  match calculateRMSsq audioBuffer with
  | none => none
  | some rmsSq =>
    let isSpeechFrame := cfg.speechThreshold ^ 2 < rmsSq
    let isSilenceFrame := rmsSq < cfg.silenceThreshold ^ 2
    let s1 := { s0 with
      buffers := s0.buffers ++ [audioBuffer]
      totalLength := s0.totalLength + audioBuffer.length
      lastActivity := now }
    let s2 := manageBufferSize s1
    let s3 :=
      if isSpeechFrame then
        { s2 with speechFrameCount := s2.speechFrameCount + 1, silenceFrameCount := 0 }
      else if isSilenceFrame then
        { s2 with silenceFrameCount := s2.silenceFrameCount + 1, speechFrameCount := 0 }
      else s2
    some (vdDispatch cfg now st0 s3)

/-- The debounce timer callback: fires only if a timer is pending and `now`
is its deadline (a cleared timer never runs). Sets the processing flag,
runs `processSpeechTurn`, clears the flag (the `finally`), deletes the
timer. -/
def fireDebounce (cfg : VoiceDetectionConfig) (now : ℕ) (st : VDState) :
    VDState × List VDEmit :=
  match st.debounceDeadline, st.pstate with
  | some deadline, some s =>
    if deadline = now then
      let r := processSpeechTurnVD cfg now s
      ({ pstate := some r.1, debounceDeadline := none, processing := false }, r.2)
    else (st, [])
  | _, _ => (st, [])

/-- `VoiceDetection.cleanup(participantId)`: cancel the pending timer,
delete the participant state and the processing flag. -/
def cleanupVD (_st : VDState) : VDState :=
  { pstate := none, debounceDeadline := none, processing := false }

/-- The three causally ordered events of a participant's worker: an incoming
frame, the moment a scheduled debounce timer fires, and teardown. -/
inductive VDEvent where
  | frame (now : ℕ) (buffer : List ℕ) : VDEvent
  | fire (now : ℕ) : VDEvent
  | cleanup : VDEvent
deriving Repr, DecidableEq

/-- One event step of the detector. -/
def vdStep (cfg : VoiceDetectionConfig) (st : VDState) :
    VDEvent → Option (VDState × List VDEmit)
  | VDEvent.frame now buffer => processAudioFrame cfg now st buffer
  | VDEvent.fire now => some (fireDebounce cfg now st)
  | VDEvent.cleanup => some (cleanupVD st, [])

/-- Run the detector over an event list, accumulating emissions;
`none` if any frame throws. -/
def vdRun (cfg : VoiceDetectionConfig) (st : VDState) :
    List VDEvent → Option (VDState × List VDEmit)
  | [] => some (st, [])
  | e :: rest =>
    match vdStep cfg st e with
    | none => none
    | some (st', ems) =>
      (vdRun cfg st' rest).map (fun r => (r.1, ems ++ r.2))

/-- Frame-cadence check used by the bounded-duration theorem: a frame that
arrives while the participant is speaking must come within `gap` ms of the
previous frame (`lastActivity`). -/
def frameGapOK (gap : ℕ) (st : VDState) (now : ℕ) : Bool :=
  match st.pstate with
  | some s => if s.isSpeaking then decide (now ≤ s.lastActivity + gap) else true
  | none => true

/-- Run the detector enforcing the frame cadence bound `gap` (`none` also
when a frame violates the cadence). -/
def vdRunGap (cfg : VoiceDetectionConfig) (gap : ℕ) (st : VDState) :
    List VDEvent → Option (VDState × List VDEmit)
  | [] => some (st, [])
  | e :: rest =>
    let ok := match e with
      | VDEvent.frame now _ => frameGapOK gap st now
      | _ => true
    if ok then
      match vdStep cfg st e with
      | none => none
      | some (st', ems) =>
        (vdRunGap cfg gap st' rest).map (fun r => (r.1, ems ++ r.2))
    else none

/-- Durations of the `speechTurn` events in an emission list. -/
def turnDurations (ems : List VDEmit) : List ℕ :=
  ems.filterMap (fun e => match e with
    | VDEmit.speechTurn _ d => some d
    | _ => none)

/-- Number of `speechStarted` events in an emission list. -/
def countStarted (ems : List VDEmit) : ℕ :=
  (ems.filter (fun e => match e with
    | VDEmit.speechStarted => true
    | _ => false)).length

/-- Number of `speechEnded` events in an emission list. -/
def countEnded (ems : List VDEmit) : ℕ :=
  (ems.filter (fun e => match e with
    | VDEmit.speechEnded _ => true
    | _ => false)).length

/-- `AudioMonitorConfig` (fields used by the modeled volume/interruption
path; the voice-detection sub-config is forwarded to `VoiceDetection` and
modeled there). -/
structure AudioMonitorConfig where
  volumeWindowSize : ℕ
  speakingThreshold : ℚ
deriving Repr, DecidableEq

/-- The constructor defaults of `AudioMonitor` for the modeled fields
(`volumeWindowSize: 10`, `speakingThreshold: 0.1`). -/
def defaultAMConfig : AudioMonitorConfig :=
  { volumeWindowSize := 10, speakingThreshold := 1/10 }

/-- `AudioMonitor.updateVolumeBuffer`: push the volume, then a single
`shift()` if the window exceeds `volumeWindowSize`. -/
def updateVolumeBuffer (cfg : AudioMonitorConfig) (volumeBuffer : List ℚ)
    (volume : ℚ) : List ℚ :=
  let vb := volumeBuffer ++ [volume]
  if cfg.volumeWindowSize < vb.length then vb.drop 1 else vb

/-- `AudioMonitor.checkForInterruption`: below a full window do nothing;
otherwise compare the arithmetic mean with `speakingThreshold` and, on
excess, emit and clear the window. Returns (new window, emitted?). -/
def checkForInterruption (cfg : AudioMonitorConfig) (volumeBuffer : List ℚ) :
    List ℚ × Bool :=
  if volumeBuffer.length < cfg.volumeWindowSize then (volumeBuffer, false)
  else
    let avgVolume := volumeBuffer.sum / (volumeBuffer.length : ℚ)
    if cfg.speakingThreshold < avgVolume then ([], true)
    else (volumeBuffer, false)

/-- The volume path of `AudioMonitor.processAudioFrame` over a stream of
per-frame volumes (each volume is the `calculateVolume` result of the frame,
whose exact value the monitored properties never constrain): per frame,
`updateVolumeBuffer` then `checkForInterruption`. Each output entry records
the window examined by the check (its length, its mean) and whether
`interruptionDetected` was emitted on that frame. -/
def monitorObs (cfg : AudioMonitorConfig) :
    List ℚ → List ℚ → List (ℕ × ℚ × Bool)
  | _, [] => []
  | volumeBuffer, v :: rest =>
    let vb1 := updateVolumeBuffer cfg volumeBuffer v
    let r := checkForInterruption cfg vb1
    (vb1.length, vb1.sum / (vb1.length : ℚ), r.2) :: monitorObs cfg r.1 rest

/-- The per-user processing record of `LiveKitService` (`userStates` entry;
the `buffers`/`lastActivity` fields play no role in the modeled guard). -/
structure LKUserState where
  isProcessing : Bool
deriving Repr, DecidableEq

/-- `LiveKitService` turn-handling state for one participant: the
`userStates` entry plus the ordered list of audio buffers actually handed to
`transcribeAudio` (the observable hand-off trace). -/
structure LKState where
  userState : Option LKUserState
  handed : List (List ℕ)
deriving Repr, DecidableEq

/-- The synchronous head of `LiveKitService.processSpeechTurn` (everything
up to the first `await`): missing user state returns; a set `isProcessing`
flag logs "Already processing speech …, skipping" and returns — the turn is
neither stored nor queued anywhere; otherwise the flag is set and the buffer
is handed to transcription. -/
def lkProcessSpeechTurnStart (st : LKState) (audioBuffer : List ℕ) : LKState :=
  match st.userState with
  | none => st
  | some u =>
    if u.isProcessing then st
    else { userState := some { isProcessing := true },
           handed := st.handed ++ [audioBuffer] }

/-- The `finally` of `LiveKitService.processSpeechTurn` once the awaited
transcription/response pipeline finishes: the flag is reset. -/
def lkTranscriptionDone (st : LKState) : LKState :=
  match st.userState with
  | none => st
  | some _ => { st with userState := some { isProcessing := false } }

/-- Interleaved events at the `LiveKitService` turn-handling layer: a
finalized turn arriving (the `speakingStopped` handler invoking
`processSpeechTurn`) and the asynchronous completion of an in-flight turn. -/
inductive LKEvent where
  | speakingStopped (audioBuffer : List ℕ) : LKEvent
  | transcriptionDone : LKEvent
deriving Repr, DecidableEq

/-- Run the turn-handling layer over an event interleaving. -/
def lkRun (st : LKState) : List LKEvent → LKState
  | [] => st
  | LKEvent.speakingStopped b :: rest => lkRun (lkProcessSpeechTurnStart st b) rest
  | LKEvent.transcriptionDone :: rest => lkRun (lkTranscriptionDone st) rest

/-- `LiveKitService.resampleAudio`, at 16-bit-sample granularity (the
source indexes its byte buffer only at sample boundaries `2*i`): identity at
equal rates, otherwise linear interpolation at fractional source position
`i * (fromRate/toRate)` with the tail clamped to the last input sample.
`Math.round` is `⌊x + 1/2⌋`, which is Mathlib's `round`. -/
def resampleAudio (inputBuffer : List ℤ) (fromRate toRate : ℕ) : List ℤ :=
  if fromRate = toRate then inputBuffer
  else
    let r : ℚ := (fromRate : ℚ) / (toRate : ℚ)
    let inputSamples := inputBuffer.length
    let outputSamples := ⌊(inputSamples : ℚ) / r⌋₊
    (List.range outputSamples).map (fun (i : ℕ) =>
      let srcIndex : ℚ := (i : ℚ) * r
      let srcIndexInt := ⌊srcIndex⌋₊
      let srcIndexFrac := srcIndex - (srcIndexInt : ℚ)
      if srcIndexInt < inputSamples - 1 then
        let sample1 := inputBuffer.getD srcIndexInt 0
        let sample2 := inputBuffer.getD (srcIndexInt + 1) 0
        round ((sample1 : ℚ) * (1 - srcIndexFrac) + (sample2 : ℚ) * srcIndexFrac)
      else inputBuffer.getD (inputSamples - 1) 0)

/-! ### Parity behavior of the RMS loop -/

/-- The RMS loop succeeds exactly on even-length buffers: an odd-length
buffer makes the final two-byte read run past the end. -/
lemma sumSquaresNorm_parity (l : List ℕ) :
    (l.length % 2 = 0 → (sumSquaresNorm l).isSome) ∧
    (l.length % 2 = 1 → sumSquaresNorm l = none) := by
  suffices h : ∀ (n : ℕ) (l : List ℕ), l.length = n →
      (l.length % 2 = 0 → (sumSquaresNorm l).isSome) ∧
      (l.length % 2 = 1 → sumSquaresNorm l = none) from h l.length l rfl
  intro n
  induction n using Nat.strong_induction_on with
  | _ n ih =>
    intro l hn
    match l with
    | [] => simp [sumSquaresNorm]
    | [x] => simp [sumSquaresNorm]
    | x :: y :: rest =>
      simp only [List.length_cons] at hn ⊢
      have hr := ih rest.length (by omega) rest rfl
      constructor
      · intro h
        have h0 : rest.length % 2 = 0 := by omega
        simp [sumSquaresNorm, Option.isSome_map]
        exact hr.1 h0
      · intro h
        have h1 : rest.length % 2 = 1 := by omega
        simp [sumSquaresNorm, hr.2 h1]

/-- Claim C9: for every PCM byte buffer shorter than 2 bytes the RMS
computation returns 0 via the early guard, and on every path that does
divide, the sample-count divisor `floor(length/2)` is at least 1 (never
zero). -/
theorem C9_rms_short_buffer (buffer : List ℕ) :
    (buffer.length < 2 → calculateRMSsq buffer = some 0) ∧
    (2 ≤ buffer.length → 1 ≤ rmsDivisor buffer) := by
  constructor
  · intro h
    simp [calculateRMSsq, h]
  · intro h
    simp only [rmsDivisor]
    omega

/-- Witness for C9 at concrete buffers. -/
theorem C9_rms_short_buffer_witness :
    calculateRMSsq [7] = some 0 ∧ 1 ≤ rmsDivisor [1, 2, 3, 4] :=
  ⟨(C9_rms_short_buffer [7]).1 (by decide),
   (C9_rms_short_buffer [1, 2, 3, 4]).2 (by decide)⟩

/-- Claim C10: the 16-bit-sample loops of `calculateRMS` and
`calculateVolume` are total on every even-length buffer, while on every
odd-length buffer of length ≥ 3 the final read extends one byte past the
end (the `RangeError` branch), and that error is reachable from the public
`processAudioFrame` entry point. -/
theorem C10_rms_read_bounds (buffer : List ℕ) :
    (buffer.length % 2 = 0 →
      (calculateRMSsq buffer).isSome ∧ (calculateVolumeSq buffer).isSome) ∧
    (buffer.length % 2 = 1 → 3 ≤ buffer.length →
      calculateRMSsq buffer = none ∧ calculateVolumeSq buffer = none ∧
      ∀ (cfg : VoiceDetectionConfig) (now : ℕ) (st : VDState),
        processAudioFrame cfg now st buffer = none) := by
  constructor
  · intro h
    have hs := (sumSquaresNorm_parity buffer).1 h
    constructor <;>
      · simp only [calculateRMSsq, calculateVolumeSq]
        split
        · simp
        · simpa using hs
  · intro h h3
    have hs := (sumSquaresNorm_parity buffer).2 h
    have hrms : calculateRMSsq buffer = none := by
      simp [calculateRMSsq, hs]
      omega
    refine ⟨hrms, ?_, ?_⟩
    · simp [calculateVolumeSq, hs]
      omega
    · intro cfg now st
      simp [processAudioFrame, hrms]

/-- Witness for C10 at concrete buffers: a 4-byte buffer computes, a 3-byte
buffer hits the out-of-range read on every interface. -/
theorem C10_rms_read_bounds_witness :
    ((calculateRMSsq [1, 2, 3, 4]).isSome ∧ (calculateVolumeSq [1, 2, 3, 4]).isSome) ∧
    (calculateRMSsq [1, 2, 3] = none ∧ calculateVolumeSq [1, 2, 3] = none ∧
      processAudioFrame defaultVDConfig 5 initialVDState [1, 2, 3] = none) := by
  have h1 := (C10_rms_read_bounds [1, 2, 3, 4]).1 (by decide)
  have h2 := (C10_rms_read_bounds [1, 2, 3]).2 (by decide) (by decide)
  exact ⟨h1, h2.1, h2.2.1, h2.2.2 defaultVDConfig 5 initialVDState⟩

/-! ### Resampler -/

/-- The per-output-sample body of the resampler loop at source position
`i * (fromRate/toRate)`: interpolate between the two bracketing samples, or
clamp to the last input sample at the tail. -/
def resampleBody (inputBuffer : List ℤ) (fromRate toRate : ℕ) (i : ℕ) : ℤ :=
  let srcIndex : ℚ := (i : ℚ) * ((fromRate : ℚ) / (toRate : ℚ))
  let srcIndexInt := ⌊srcIndex⌋₊
  let srcIndexFrac := srcIndex - (srcIndexInt : ℚ)
  if srcIndexInt < inputBuffer.length - 1 then
    round ((inputBuffer.getD srcIndexInt 0 : ℚ) * (1 - srcIndexFrac)
      + (inputBuffer.getD (srcIndexInt + 1) 0 : ℚ) * srcIndexFrac)
  else inputBuffer.getD (inputBuffer.length - 1) 0

/-- At unequal rates the resampler is the loop body mapped over the output
index range. -/
lemma resampleAudio_ne (inputBuffer : List ℤ) (fromRate toRate : ℕ)
    (hne : fromRate ≠ toRate) :
    resampleAudio inputBuffer fromRate toRate =
      (List.range ⌊(inputBuffer.length : ℚ) / ((fromRate : ℚ) / (toRate : ℚ))⌋₊).map
        (resampleBody inputBuffer fromRate toRate) := by
  unfold resampleAudio
  rw [if_neg hne]
  rfl

/-- Claim C8: at equal rates the resampler is the identity; otherwise the
output holds `floor(inputSamples / (fromRate/toRate))` samples (equivalently
`inputSamples * toRate / fromRate` in integer arithmetic), and each output
sample is the rounded linear interpolation of the two input samples
bracketing the fractional source position `i * fromRate/toRate`, clamped to
the last input sample once that position would overrun the input. -/
theorem C8_resample (inputBuffer : List ℤ) (fromRate toRate : ℕ) :
    (fromRate = toRate → resampleAudio inputBuffer fromRate toRate = inputBuffer) ∧
    (fromRate ≠ toRate → 0 < fromRate → 0 < toRate →
      (resampleAudio inputBuffer fromRate toRate).length
          = inputBuffer.length * toRate / fromRate ∧
      ∀ (i : ℕ) (hi : i < (resampleAudio inputBuffer fromRate toRate).length),
        (resampleAudio inputBuffer fromRate toRate).get ⟨i, hi⟩ =
          (if ⌊(i : ℚ) * ((fromRate : ℚ) / (toRate : ℚ))⌋₊ < inputBuffer.length - 1 then
            round ((inputBuffer.getD ⌊(i : ℚ) * ((fromRate : ℚ) / (toRate : ℚ))⌋₊ 0 : ℚ)
                * (1 - ((i : ℚ) * ((fromRate : ℚ) / (toRate : ℚ))
                    - (⌊(i : ℚ) * ((fromRate : ℚ) / (toRate : ℚ))⌋₊ : ℚ)))
              + (inputBuffer.getD (⌊(i : ℚ) * ((fromRate : ℚ) / (toRate : ℚ))⌋₊ + 1) 0 : ℚ)
                * ((i : ℚ) * ((fromRate : ℚ) / (toRate : ℚ))
                    - (⌊(i : ℚ) * ((fromRate : ℚ) / (toRate : ℚ))⌋₊ : ℚ)))
          else inputBuffer.getD (inputBuffer.length - 1) 0)) := by
  constructor
  · intro h
    simp [resampleAudio, h]
  · intro hne _hf _ht
    have hout := resampleAudio_ne inputBuffer fromRate toRate hne
    constructor
    · rw [hout, List.length_map, List.length_range]
      have hq : (inputBuffer.length : ℚ) / ((fromRate : ℚ) / (toRate : ℚ))
          = ((inputBuffer.length * toRate : ℕ) : ℚ) / ((fromRate : ℕ) : ℚ) := by
        rw [div_div_eq_mul_div]
        push_cast
        ring
      rw [hq, Nat.floor_div_nat, Nat.floor_natCast]
    · intro i hi
      rw [hout] at hi
      simp only [hout, List.get_eq_getElem, List.getElem_map, List.getElem_range]
      rfl

/-- Witness for C8: identity at 16000→16000, and 48000→16000 on three
samples yields one sample. -/
theorem C8_resample_witness :
    resampleAudio [5, 11, 300] 16000 16000 = [5, 11, 300] ∧
    (resampleAudio [5, 11, 300] 48000 16000).length = 1 := by
  have h1 := (C8_resample [5, 11, 300] 16000 16000).1 rfl
  have h2 := ((C8_resample [5, 11, 300] 48000 16000).2 (by decide) (by decide) (by decide)).1
  exact ⟨h1, by rw [h2]; rfl⟩

/-! ### Interruption monitor -/

/-- One push keeps the window within the configured size. -/
lemma updateVolumeBuffer_length_le (cfg : AudioMonitorConfig)
    (volumeBuffer : List ℚ) (v : ℚ)
    (h : volumeBuffer.length ≤ cfg.volumeWindowSize) :
    (updateVolumeBuffer cfg volumeBuffer v).length ≤ cfg.volumeWindowSize := by
  simp only [updateVolumeBuffer]
  split <;> simp_all

/-- One push grows the window by at most one entry. -/
lemma updateVolumeBuffer_length_succ (cfg : AudioMonitorConfig)
    (volumeBuffer : List ℚ) (v : ℚ) :
    (updateVolumeBuffer cfg volumeBuffer v).length ≤ volumeBuffer.length + 1 := by
  simp only [updateVolumeBuffer]
  split <;> simp

/-- An emission requires a full window and an over-threshold mean, and
clears the window. -/
lemma checkForInterruption_fired (cfg : AudioMonitorConfig)
    (volumeBuffer : List ℚ)
    (h : (checkForInterruption cfg volumeBuffer).2 = true) :
    cfg.volumeWindowSize ≤ volumeBuffer.length ∧
    cfg.speakingThreshold < volumeBuffer.sum / (volumeBuffer.length : ℚ) ∧
    (checkForInterruption cfg volumeBuffer).1 = [] := by
  by_cases hlt : volumeBuffer.length < cfg.volumeWindowSize
  · simp [checkForInterruption, hlt] at h
  · by_cases havg : cfg.speakingThreshold < volumeBuffer.sum / (volumeBuffer.length : ℚ)
    · exact ⟨by omega, havg, by simp [checkForInterruption, hlt, havg]⟩
    · simp [checkForInterruption, hlt, havg] at h

/-- A non-emitting check leaves the window untouched. -/
lemma checkForInterruption_not_fired (cfg : AudioMonitorConfig)
    (volumeBuffer : List ℚ)
    (h : (checkForInterruption cfg volumeBuffer).2 = false) :
    (checkForInterruption cfg volumeBuffer).1 = volumeBuffer := by
  by_cases hlt : volumeBuffer.length < cfg.volumeWindowSize
  · simp [checkForInterruption, hlt]
  · by_cases havg : cfg.speakingThreshold < volumeBuffer.sum / (volumeBuffer.length : ℚ)
    · simp [checkForInterruption, hlt, havg] at h
    · simp [checkForInterruption, hlt, havg]

/-- Any entry of the monitor run that reports an emission examined a window
of exactly `volumeWindowSize` entries whose mean exceeded the threshold
(provided the incoming window respects the size invariant, as the empty
initial window does). -/
lemma monitorObs_fired_window (cfg : AudioMonitorConfig) :
    ∀ (vols volumeBuffer : List ℚ),
      volumeBuffer.length ≤ cfg.volumeWindowSize →
      ∀ e ∈ monitorObs cfg volumeBuffer vols, e.2.2 = true →
        e.1 = cfg.volumeWindowSize ∧ cfg.speakingThreshold < e.2.1 := by
  intro vols
  induction vols with
  | nil => intro vb _ e he; simp [monitorObs] at he
  | cons v rest ih =>
    intro vb hvb e he hfire
    simp only [monitorObs, List.mem_cons] at he
    rcases he with he | he
    · subst he
      simp only at hfire
      have hlen := updateVolumeBuffer_length_le cfg vb v hvb
      have hf := checkForInterruption_fired cfg _ hfire
      exact ⟨by omega, hf.2.1⟩
    · rcases hc : (checkForInterruption cfg (updateVolumeBuffer cfg vb v)).2 with _ | _
      · have hkeep := checkForInterruption_not_fired cfg _ hc
        refine ih _ ?_ e he hfire
        rw [hkeep]
        exact updateVolumeBuffer_length_le cfg vb v hvb
      · have hf := checkForInterruption_fired cfg _ hc
        refine ih _ ?_ e he hfire
        rw [hf.2.2]
        simp

/-- Index of emissions: an emission at position `j` of the run needs the
window to have reached full size, so `volumeWindowSize ≤ startLen + j + 1`. -/
lemma monitorObs_fired_index (cfg : AudioMonitorConfig) :
    ∀ (vols volumeBuffer : List ℚ) (j : ℕ)
      (hj : j < (monitorObs cfg volumeBuffer vols).length),
      ((monitorObs cfg volumeBuffer vols).get ⟨j, hj⟩).2.2 = true →
      cfg.volumeWindowSize ≤ volumeBuffer.length + j + 1 := by
  intro vols
  induction vols with
  | nil => intro vb j hj; simp [monitorObs] at hj
  | cons v rest ih =>
    intro vb j hj hfire
    match j with
    | 0 =>
      simp only [monitorObs, List.get_eq_getElem, List.getElem_cons_zero] at hfire
      have hf := checkForInterruption_fired cfg _ hfire
      have := updateVolumeBuffer_length_succ cfg vb v
      omega
    | j + 1 =>
      simp only [monitorObs, List.get_eq_getElem, List.getElem_cons_succ] at hfire hj
      simp only [monitorObs, List.length_cons] at hj
      have hrec := ih ((checkForInterruption cfg (updateVolumeBuffer cfg vb v)).1)
        j (by omega) (by simpa using hfire)
      rcases hc : (checkForInterruption cfg (updateVolumeBuffer cfg vb v)).2 with _ | _
      · have hkeep := checkForInterruption_not_fired cfg _ hc
        rw [hkeep] at hrec
        have := updateVolumeBuffer_length_succ cfg vb v
        omega
      · have hf := checkForInterruption_fired cfg _ hc
        rw [hf.2.2] at hrec
        simp at hrec
        omega

/-- Two emissions of the run are at least `volumeWindowSize` frames apart:
the window is cleared by the first, and must refill before the second. -/
lemma monitorObs_fired_gap (cfg : AudioMonitorConfig) :
    ∀ (vols volumeBuffer : List ℚ) (i j : ℕ)
      (hi : i < (monitorObs cfg volumeBuffer vols).length)
      (hj : j < (monitorObs cfg volumeBuffer vols).length),
      i < j →
      ((monitorObs cfg volumeBuffer vols).get ⟨i, hi⟩).2.2 = true →
      ((monitorObs cfg volumeBuffer vols).get ⟨j, hj⟩).2.2 = true →
      i + cfg.volumeWindowSize ≤ j := by
  intro vols
  induction vols with
  | nil => intro vb i j hi; simp [monitorObs] at hi
  | cons v rest ih =>
    intro vb i j hi hj hij hfi hfj
    match i, j with
    | 0, j + 1 =>
      simp only [monitorObs, List.get_eq_getElem, List.getElem_cons_zero] at hfi
      simp only [monitorObs, List.get_eq_getElem, List.getElem_cons_succ] at hfj
      simp only [monitorObs, List.length_cons] at hj
      have hf := checkForInterruption_fired cfg _ hfi
      have hidx := monitorObs_fired_index cfg rest
        ((checkForInterruption cfg (updateVolumeBuffer cfg vb v)).1) j (by omega)
        (by simpa using hfj)
      rw [hf.2.2] at hidx
      simp at hidx
      omega
    | i + 1, j + 1 =>
      simp only [monitorObs, List.get_eq_getElem, List.getElem_cons_succ] at hfi hfj
      simp only [monitorObs, List.length_cons] at hi hj
      have := ih ((checkForInterruption cfg (updateVolumeBuffer cfg vb v)).1)
        i j (by omega) (by omega) (by omega) (by simpa using hfi) (by simpa using hfj)
      omega

/-- Claim C7: `interruptionDetected` fires on a frame only when the volume
window holds exactly `volumeWindowSize` entries whose arithmetic mean
exceeds the speaking (interruption) threshold, and the window clearing on
emission forces at least `volumeWindowSize` further frames before another
emission for that participant. -/
theorem C7_interruption_window (cfg : AudioMonitorConfig) (vols : List ℚ) :
    (∀ e ∈ monitorObs cfg [] vols, e.2.2 = true →
      e.1 = cfg.volumeWindowSize ∧ cfg.speakingThreshold < e.2.1) ∧
    (∀ (i j : ℕ) (hi : i < (monitorObs cfg [] vols).length)
        (hj : j < (monitorObs cfg [] vols).length), i < j →
      ((monitorObs cfg [] vols).get ⟨i, hi⟩).2.2 = true →
      ((monitorObs cfg [] vols).get ⟨j, hj⟩).2.2 = true →
      i + cfg.volumeWindowSize ≤ j) :=
  ⟨monitorObs_fired_window cfg vols [] (by simp),
   monitorObs_fired_gap cfg vols []⟩

/-- Witness for C7: window size 2, threshold 0, volumes `[1,1,1,1]`:
emissions on the 2nd and 4th frames (indices 1 and 3), two frames apart,
each over a full 2-entry window with mean 1. -/
theorem C7_interruption_window_witness :
    ((2 : ℕ), (1 : ℚ), true).1 = 2 ∧ (0 : ℚ) < ((2 : ℕ), (1 : ℚ), true).2.1 ∧
    (1 : ℕ) + 2 ≤ 3 := by
  have hobs : monitorObs ⟨2, 0⟩ [] [1, 1, 1, 1]
      = [(1, 1, false), (2, 1, true), (1, 1, false), (2, 1, true)] := by
    norm_num [monitorObs, updateVolumeBuffer, checkForInterruption]
  have h := C7_interruption_window ⟨2, 0⟩ [1, 1, 1, 1]
  have hmem : ((2 : ℕ), (1 : ℚ), true) ∈ monitorObs ⟨2, 0⟩ [] [1, 1, 1, 1] := by
    rw [hobs]
    exact List.mem_cons_of_mem _ (List.mem_cons_self _ _)
  have hA := h.1 _ hmem rfl
  have hi1 : 1 < (monitorObs ⟨2, 0⟩ [] [1, 1, 1, 1]).length := by rw [hobs]; decide
  have hi3 : 3 < (monitorObs ⟨2, 0⟩ [] [1, 1, 1, 1]).length := by rw [hobs]; decide
  have hf1 : ((monitorObs ⟨2, 0⟩ [] [1, 1, 1, 1]).get ⟨1, hi1⟩).2.2 = true := by
    rw [List.get_of_eq hobs]
    rfl
  have hf3 : ((monitorObs ⟨2, 0⟩ [] [1, 1, 1, 1]).get ⟨3, hi3⟩).2.2 = true := by
    rw [List.get_of_eq hobs]
    rfl
  exact ⟨hA.1, hA.2, h.2 1 3 hi1 hi3 (by omega) hf1 hf3⟩

/-! ### LiveKitService turn hand-off guard -/

/-- The event interleaving that refutes claim C1: two turns finalize for
the same participant before the first one's transcription completes. -/
def c1Events : List LKEvent :=
  [LKEvent.speakingStopped [1], LKEvent.speakingStopped [2],
   LKEvent.transcriptionDone]

/-- Counterexample to claim C1: with user state present and idle, a first
finalized turn `[1]` is handed to transcription, and a second turn `[2]`
finalizing while `isProcessing` is still set is skipped outright — after the
in-flight turn completes, only `[1]` was ever handed to transcription and
`[2]` appears nowhere in the final state (there is no queue to hold it). -/
theorem C1_counterexample :
    (lkRun { userState := some { isProcessing := false }, handed := [] }
        c1Events).handed = [[1]] ∧
    ([2] : List ℕ) ∉ (lkRun { userState := some { isProcessing := false }, handed := [] }
        c1Events).handed := by
  constructor <;> decide

/-- Claim C1 amended: a turn finalizing while the participant's
`isProcessing` flag is set is dropped — the handler returns with the state
(and the transcription hand-off trace) completely unchanged, so the turn is
never handed to transcription; only a turn arriving with the flag clear is
handed on (in arrival order), setting the flag. -/
theorem C1_processing_guard_drops (st : LKState) (u : LKUserState)
    (audioBuffer : List ℕ) (hu : st.userState = some u) :
    (u.isProcessing = true → lkProcessSpeechTurnStart st audioBuffer = st) ∧
    (u.isProcessing = false → lkProcessSpeechTurnStart st audioBuffer =
      { userState := some { isProcessing := true },
        handed := st.handed ++ [audioBuffer] }) := by
  constructor <;> intro hp <;> simp [lkProcessSpeechTurnStart, hu, hp]

/-- Witness for the amended C1 at concrete states. -/
theorem C1_processing_guard_drops_witness :
    lkProcessSpeechTurnStart
        { userState := some { isProcessing := true }, handed := [[9]] } [4]
      = { userState := some { isProcessing := true }, handed := [[9]] } ∧
    lkProcessSpeechTurnStart
        { userState := some { isProcessing := false }, handed := [[9]] } [4]
      = { userState := some { isProcessing := true }, handed := [[9], [4]] } :=
  ⟨(C1_processing_guard_drops _ { isProcessing := true } [4] rfl).1 rfl,
   (C1_processing_guard_drops _ { isProcessing := false } [4] rfl).2 rfl⟩

/-! ### Buffer ceiling -/

/-- The eviction loop either gets the tracked total under the ceiling or
stops with a single buffer left; it only ever drops a prefix (the oldest
frames first), and never empties a nonempty list. -/
lemma manageBufferLoop_spec (bufs : List (List ℕ)) (total : ℕ) :
    ((manageBufferLoop bufs total).2 ≤ maxBufferSize ∨
      (manageBufferLoop bufs total).1.length ≤ 1) ∧
    (∃ k, (manageBufferLoop bufs total).1 = bufs.drop k) ∧
    (bufs ≠ [] → (manageBufferLoop bufs total).1 ≠ []) := by
  induction bufs generalizing total with
  | nil => exact ⟨Or.inr (by simp [manageBufferLoop]), ⟨0, rfl⟩, by simp⟩
  | cons b tail ih =>
    cases tail with
    | nil => exact ⟨Or.inr (by simp [manageBufferLoop]), ⟨0, rfl⟩, by simp [manageBufferLoop]⟩
    | cons b' rest =>
      simp only [manageBufferLoop]
      split
      · obtain ⟨hd, ⟨k, hk⟩, hne⟩ := ih (total - b.length)
        exact ⟨hd, ⟨k + 1, by simpa using hk⟩, fun _ => hne (by simp)⟩
      · exact ⟨Or.inl (by omega), ⟨0, rfl⟩, by simp⟩

/-- `processSpeechTurn` always leaves the participant with empty buffers
and zero tracked bytes (every path ends in `resetParticipantState`). -/
lemma processSpeechTurnVD_resets (cfg : VoiceDetectionConfig) (now : ℕ)
    (s : VoiceActivityState) :
    (processSpeechTurnVD cfg now s).1.buffers = [] ∧
    (processSpeechTurnVD cfg now s).1.totalLength = 0 := by
  simp only [processSpeechTurnVD, resetParticipantState]
  split
  · exact ⟨rfl, rfl⟩
  · split
    · exact ⟨rfl, rfl⟩
    · split <;> exact ⟨rfl, rfl⟩

/-- Shape of a successful `processAudioFrame` call: it dispatches on a
counted state `s3` whose buffers and tracked total are exactly the result
of the eviction loop applied to the pushed frame sequence, with speaking
flag and start time carried over from the incoming state. -/
lemma processAudioFrame_shape (cfg : VoiceDetectionConfig) (now : ℕ)
    (st : VDState) (buffer : List ℕ) (q : ℚ)
    (hrms : calculateRMSsq buffer = some q) :
    ∃ s3 : VoiceActivityState,
      processAudioFrame cfg now st buffer = some (vdDispatch cfg now
        { pstate := some (st.pstate.getD (initParticipantState now))
          debounceDeadline := st.debounceDeadline
          processing := if st.pstate.isSome then st.processing else false } s3) ∧
      s3.buffers = (manageBufferLoop
        ((st.pstate.getD (initParticipantState now)).buffers ++ [buffer])
        ((st.pstate.getD (initParticipantState now)).totalLength + buffer.length)).1 ∧
      s3.totalLength = (manageBufferLoop
        ((st.pstate.getD (initParticipantState now)).buffers ++ [buffer])
        ((st.pstate.getD (initParticipantState now)).totalLength + buffer.length)).2 ∧
      s3.isSpeaking = (st.pstate.getD (initParticipantState now)).isSpeaking ∧
      s3.speechStartTime = (st.pstate.getD (initParticipantState now)).speechStartTime ∧
      s3.lastActivity = now ∧
      s3.speechFrameCount ≤ (st.pstate.getD (initParticipantState now)).speechFrameCount + 1 := by
  simp only [processAudioFrame, hrms]
  refine ⟨_, rfl, ?_, ?_, ?_, ?_, ?_, ?_⟩ <;>
    · split
      · rfl
      · split <;>
          first
          | rfl
          | exact Nat.zero_le _
          | exact Nat.le_succ _

/-- Every dispatch branch leaves the participant state present, with either
the counted buffers kept intact or cleared to empty. -/
lemma vdDispatch_buffers (cfg : VoiceDetectionConfig) (now : ℕ)
    (st0 : VDState) (s3 : VoiceActivityState) :
    ∃ s', (vdDispatch cfg now st0 s3).1.pstate = some s' ∧
      ((s'.buffers = s3.buffers ∧ s'.totalLength = s3.totalLength) ∨
       (s'.buffers = [] ∧ s'.totalLength = 0)) := by
  unfold vdDispatch
  split
  · unfold handleSpeechStart
    split
    · exact ⟨_, rfl, Or.inl ⟨rfl, rfl⟩⟩
    · exact ⟨_, rfl, Or.inr ⟨rfl, rfl⟩⟩
  · split
    · unfold handlePotentialSpeechEnd setupDebouncedProcessing
      split
      · exact ⟨_, rfl, Or.inr ⟨rfl, rfl⟩⟩
      · exact ⟨_, rfl, Or.inl ⟨rfl, rfl⟩⟩
    · split
      · exact ⟨_, rfl, Or.inr ⟨(processSpeechTurnVD_resets cfg now s3).1,
          (processSpeechTurnVD_resets cfg now s3).2⟩⟩
      · exact ⟨_, rfl, Or.inl ⟨rfl, rfl⟩⟩

/-- Claim C4 amended: after every successful `processAudioFrame` call the
participant's buffered bytes are at or below the 10 MiB ceiling unless a
single buffered frame remains (the eviction loop stops at one buffer, so a
lone oversize frame can exceed the ceiling on its own); eviction always
removes the oldest buffered frames first — the kept buffers are a suffix of
the previously buffered frames followed by the incoming one. -/
theorem C4_buffer_ceiling (cfg : VoiceDetectionConfig) (now : ℕ)
    (st : VDState) (buffer : List ℕ) (st' : VDState) (ems : List VDEmit)
    (h : processAudioFrame cfg now st buffer = some (st', ems)) :
    ∃ s', st'.pstate = some s' ∧
      (s'.totalLength ≤ maxBufferSize ∨ s'.buffers.length = 1) ∧
      ∃ k, s'.buffers =
        ((st.pstate.getD (initParticipantState now)).buffers ++ [buffer]).drop k := by
  rcases hrms : calculateRMSsq buffer with _ | q
  · rw [processAudioFrame, hrms] at h
    simp at h
  · obtain ⟨s3, heq, hbuf, htot, -, -, -, -⟩ :=
      processAudioFrame_shape cfg now st buffer q hrms
    rw [heq] at h
    obtain ⟨hst', -⟩ : (vdDispatch cfg now _ s3).1 = st' ∧ _ := by
      have := Option.some.inj h
      exact ⟨congrArg Prod.fst this, congrArg Prod.snd this⟩
    obtain ⟨s', hps, hkeep⟩ := vdDispatch_buffers cfg now _ s3
    rw [hst'] at hps
    obtain ⟨hloop, ⟨k, hk⟩, hne⟩ := manageBufferLoop_spec
      ((st.pstate.getD (initParticipantState now)).buffers ++ [buffer])
      ((st.pstate.getD (initParticipantState now)).totalLength + buffer.length)
    rcases hkeep with ⟨hb, ht⟩ | ⟨hb, ht⟩
    · refine ⟨s', hps, ?_, ⟨k, by rw [hb, hbuf, hk]⟩⟩
      rcases hloop with hl | hl
      · exact Or.inl (by rw [ht, htot]; exact hl)
      · refine Or.inr ?_
        have h1 : s'.buffers ≠ [] := by
          rw [hb, hbuf]
          exact hne (by simp)
        have h2 : s'.buffers.length ≤ 1 := by rw [hb, hbuf]; exact hl
        cases hbb : s'.buffers with
        | nil => exact absurd hbb h1
        | cons a tl => rw [hbb] at h2; simp at h2; simp [h2]
    · exact ⟨s', hps, Or.inl (by rw [ht]; simp [maxBufferSize]),
        ⟨((st.pstate.getD (initParticipantState now)).buffers ++ [buffer]).length,
          by rw [hb]; simp⟩⟩


/-- In the idle state with too few counted speech frames, the dispatch
takes the plain-continuation branch. -/
lemma vdDispatch_idle (cfg : VoiceDetectionConfig) (now : ℕ) (st0 : VDState)
    (s3 : VoiceActivityState) (hspk : s3.isSpeaking = false)
    (hcnt : s3.speechFrameCount < cfg.speechFramesRequired) :
    vdDispatch cfg now st0 s3 = ({ st0 with pstate := some s3 }, []) := by
  unfold vdDispatch
  rw [if_neg (by rw [hspk]; simp; omega)]
  rw [if_neg (by rw [hspk]; simp)]
  rw [if_neg (by rw [hspk]; simp)]

/-- The participant state produced by running `processAudioFrame` on a
fresh detector with a frame, kept for the C4 witness. -/
def c4SmallState : VoiceActivityState :=
  { isSpeaking := false
    speechStartTime := 0
    speechEndTime := 0
    buffers := [[0, 0]]
    totalLength := 2
    lastActivity := 0
    speechFrameCount := 0
    silenceFrameCount := 1 }

/-- Witness for the amended C4: a fresh detector processing a 2-byte silent
frame ends under the ceiling with the frame buffered. -/
theorem C4_buffer_ceiling_witness :
    ∃ s', (VDState.mk (some c4SmallState) none false).pstate = some s' ∧
      (s'.totalLength ≤ maxBufferSize ∨ s'.buffers.length = 1) ∧
      ∃ k, s'.buffers =
        ((initialVDState.pstate.getD (initParticipantState 0)).buffers
          ++ [[0, 0]]).drop k := by
  have hrun : processAudioFrame defaultVDConfig 0 initialVDState [0, 0] =
      some (VDState.mk (some c4SmallState) none false, []) := by
    norm_num [processAudioFrame, calculateRMSsq, sumSquaresNorm, int16LE,
      rmsDivisor, vdDispatch, manageBufferSize, manageBufferLoop,
      initParticipantState, initialVDState, maxBufferSize, defaultVDConfig,
      c4SmallState]
  exact C4_buffer_ceiling defaultVDConfig 0 initialVDState [0, 0] _ _ hrun

/-- The zero frame of any even length computes a zero sum of squares. -/
lemma sumSquaresNorm_replicate_zero (n : ℕ) :
    sumSquaresNorm (List.replicate (2 * n) 0) = some 0 := by
  induction n with
  | zero => rfl
  | succ m ih =>
    have h2 : 2 * (m + 1) = (2 * m) + 1 + 1 := by omega
    rw [h2, List.replicate_succ, List.replicate_succ]
    simp [sumSquaresNorm, ih, int16LE]

/-- The zero frame of any positive even length has zero RMS. -/
lemma calculateRMSsq_replicate_zero (n : ℕ) (h : 1 ≤ n) :
    calculateRMSsq (List.replicate (2 * n) 0) = some 0 := by
  rw [calculateRMSsq]
  rw [if_neg (by simp; omega)]
  rw [sumSquaresNorm_replicate_zero]
  simp

/-- Projection used to state the C4 counterexample: the tracked buffered
byte count after a frame is processed. -/
def pframeTotalLength (r : Option (VDState × List VDEmit)) : Option ℕ :=
  r.bind (fun p => p.1.pstate.map VoiceActivityState.totalLength)

/-- The eviction loop leaves a single buffer untouched. -/
lemma manageBufferLoop_single (b : List ℕ) (t : ℕ) :
    manageBufferLoop [b] t = ([b], t) := rfl

/-- Counterexample to claim C4 as stated: one silent frame of
10 MiB + 2 bytes leaves the participant's tracked buffered bytes at
10485762, strictly above the 10 MiB ceiling, after `processAudioFrame`
returns — the eviction loop never evicts the last remaining buffer. -/
theorem C4_counterexample :
    pframeTotalLength (processAudioFrame defaultVDConfig 0 initialVDState
      (List.replicate 10485762 0)) = some 10485762 ∧
    maxBufferSize < 10485762 := by
  have hrms : calculateRMSsq (List.replicate 10485762 0) = some 0 := by
    have h := calculateRMSsq_replicate_zero 5242881 (by norm_num)
    have e : 2 * 5242881 = 10485762 := by norm_num
    rw [e] at h
    exact h
  obtain ⟨s3, heq, hbuf, htot, hspk, hstart, hlast, hcount⟩ :=
    processAudioFrame_shape defaultVDConfig 0 initialVDState
      (List.replicate 10485762 0) 0 hrms
  have hidle := vdDispatch_idle defaultVDConfig 0
    { pstate := some (initialVDState.pstate.getD (initParticipantState 0))
      debounceDeadline := initialVDState.debounceDeadline
      processing := if initialVDState.pstate.isSome then initialVDState.processing else false }
    s3 (by rw [hspk]; rfl) (by
      refine lt_of_le_of_lt hcount ?_
      show (0 : ℕ) + 1 < 3
      omega)
  refine ⟨?_, by norm_num [maxBufferSize]⟩
  rw [heq, hidle]
  show some s3.totalLength = some 10485762
  rw [htot]
  have hlen : (List.replicate 10485762 (0 : ℕ)).length = 10485762 :=
    List.length_replicate _ _
  have hb : (initialVDState.pstate.getD (initParticipantState 0)).buffers = [] := rfl
  have ht2 : (initialVDState.pstate.getD (initParticipantState 0)).totalLength = 0 := rfl
  rw [hb, ht2, List.nil_append, hlen, Nat.zero_add, manageBufferLoop_single]

/-! ### Teardown -/

/-- The per-participant record of `AudioMonitor.participantStates`. -/
structure AMParticipantState where
  isSpeaking : Bool
  startTime : ℕ
  lastActivity : ℕ
deriving Repr, DecidableEq

/-- `AudioMonitor` state for one participant: its own three per-participant
map entries plus the wrapped `VoiceDetection` state. -/
structure MonitorState where
  pentry : Option AMParticipantState
  volumeBuffer : Option (List ℚ)
  participantBuffer : Option (List (List ℕ))
  vd : VDState
deriving Repr, DecidableEq

/-- `AudioMonitor.stopMonitoring`: delete the participant's three map
entries and call `voiceDetection.cleanup(participantId)`. -/
def stopMonitoring (m : MonitorState) : MonitorState :=
  { pentry := none
    volumeBuffer := none
    participantBuffer := none
    vd := cleanupVD m.vd }

/-- Frame events of the detector event alphabet. -/
def isFrameEv : VDEvent → Bool
  | VDEvent.frame _ _ => true
  | _ => false

/-- From a cleaned-up detector (all maps empty, exactly the fresh state),
any event sequence without frames leaves the detector unchanged and emits
nothing: a fire event finds no pending deadline (the timer was cancelled)
and a further cleanup is idempotent. -/
lemma vdRun_cleaned (cfg : VoiceDetectionConfig) (evs : List VDEvent)
    (h : ∀ e ∈ evs, isFrameEv e = false) :
    vdRun cfg initialVDState evs = some (initialVDState, []) := by
  induction evs with
  | nil => rfl
  | cons e rest ih =>
    have hrest := ih (fun e' he' => h e' (List.mem_cons_of_mem _ he'))
    cases e with
    | frame now buffer =>
      have := h (VDEvent.frame now buffer) (List.mem_cons_self _ _)
      simp [isFrameEv] at this
    | fire now =>
      have hstep : fireDebounce cfg now initialVDState = (initialVDState, []) := rfl
      simp only [vdRun, vdStep, hstep, hrest, Option.map_some']
      rfl
    | cleanup =>
      have hstep : cleanupVD initialVDState = initialVDState := rfl
      simp only [vdRun, vdStep, hstep, hrest, Option.map_some']
      rfl

/-- Claim C6: `stopMonitoring`/`cleanup` synchronously cancel the pending
debounce timer and discard the buffered unfinalized state, and afterwards no
`speechTurn` or `speechEnded` (indeed no event at all) is emitted for the
participant on any continuation that brings it no new frames — in
particular the cancelled timer's fire moment emits nothing. -/
theorem C6_stop_monitoring_cancels (cfg : VoiceDetectionConfig)
    (m : MonitorState) :
    (stopMonitoring m).vd.debounceDeadline = none ∧
    (stopMonitoring m).vd.pstate = none ∧
    (stopMonitoring m).vd = cleanupVD m.vd ∧
    ∀ evs : List VDEvent, (∀ e ∈ evs, isFrameEv e = false) →
      vdRun cfg (stopMonitoring m).vd evs = some ((stopMonitoring m).vd, []) :=
  ⟨rfl, rfl, rfl, fun evs h => vdRun_cleaned cfg evs h⟩

/-- A monitor with a pending debounce deadline at time 800, used as the C6
witness scenario. -/
def c6Monitor : MonitorState :=
  { pentry := some { isSpeaking := false, startTime := 0, lastActivity := 0 }
    volumeBuffer := some []
    participantBuffer := some []
    vd := { pstate := some (initParticipantState 0)
            debounceDeadline := some 800
            processing := false } }

/-- Witness for C6: tearing down `c6Monitor` cancels its pending deadline;
the timer's fire moment and a repeated cleanup then emit nothing. -/
theorem C6_stop_monitoring_cancels_witness :
    (stopMonitoring c6Monitor).vd.debounceDeadline = none ∧
    vdRun defaultVDConfig (stopMonitoring c6Monitor).vd
        [VDEvent.fire 800, VDEvent.cleanup]
      = some ((stopMonitoring c6Monitor).vd, []) := by
  have h := C6_stop_monitoring_cancels defaultVDConfig c6Monitor
  exact ⟨h.1, h.2.2.2 [VDEvent.fire 800, VDEvent.cleanup] (by decide)⟩

/-! ### Speech-start timing -/

/-- A list of timestamped frames as detector events. -/
def framesToEvents (fs : List (ℕ × List ℕ)) : List VDEvent :=
  fs.map (fun p => VDEvent.frame p.1 p.2)

/-- Boolean classifier: the frame's RMS computes and exceeds the speech
threshold (`rms > speechThreshold` in the source). -/
def isSpeechFrameB (cfg : VoiceDetectionConfig) (buffer : List ℕ) : Bool :=
  match calculateRMSsq buffer with
  | some q => decide (cfg.speechThreshold ^ 2 < q)
  | none => false

/-- Unpack the Boolean speech classifier. -/
lemma isSpeechFrameB_spec (cfg : VoiceDetectionConfig) (buffer : List ℕ)
    (h : isSpeechFrameB cfg buffer = true) :
    ∃ q, calculateRMSsq buffer = some q ∧ cfg.speechThreshold ^ 2 < q := by
  unfold isSpeechFrameB at h
  rcases hrms : calculateRMSsq buffer with _ | q
  · rw [hrms] at h
    simp at h
  · rw [hrms] at h
    exact ⟨q, rfl, by simpa using h⟩

/-- Running an event list in two stages. -/
lemma vdRun_append (cfg : VoiceDetectionConfig) (st : VDState)
    (l1 l2 : List VDEvent) :
    vdRun cfg st (l1 ++ l2) =
      match vdRun cfg st l1 with
      | none => none
      | some r => (vdRun cfg r.1 l2).map (fun r2 => (r2.1, r.2 ++ r2.2)) := by
  induction l1 generalizing st with
  | nil =>
    rcases h : vdRun cfg st l2 with _ | r2 <;> simp [vdRun, h]
  | cons e rest ih =>
    simp only [List.cons_append, vdRun]
    rcases h : vdStep cfg st e with _ | r
    · rfl
    · simp only []
      rw [show List.append rest l2 = rest ++ l2 from rfl, ih r.1]
      rcases h1 : vdRun cfg r.1 rest with _ | r1
      · rfl
      · rcases h2 : vdRun cfg r1.1 l2 with _ | r2 <;>
          simp [h2, Function.comp, List.append_assoc]

/-- Shape of `processAudioFrame` on a speech-classified frame: the counted
state increments the consecutive-speech counter, resets the silence
counter, and carries the speaking flag and start time over. -/
lemma processAudioFrame_speech_shape (cfg : VoiceDetectionConfig) (t : ℕ)
    (st : VDState) (buffer : List ℕ) (q : ℚ)
    (hrms : calculateRMSsq buffer = some q)
    (hq : cfg.speechThreshold ^ 2 < q) :
    ∃ s3 : VoiceActivityState,
      processAudioFrame cfg t st buffer = some (vdDispatch cfg t
        { pstate := some (st.pstate.getD (initParticipantState t))
          debounceDeadline := st.debounceDeadline
          processing := if st.pstate.isSome then st.processing else false } s3) ∧
      s3.isSpeaking = (st.pstate.getD (initParticipantState t)).isSpeaking ∧
      s3.speechStartTime = (st.pstate.getD (initParticipantState t)).speechStartTime ∧
      s3.speechFrameCount = (st.pstate.getD (initParticipantState t)).speechFrameCount + 1 ∧
      s3.silenceFrameCount = 0 := by
  simp only [processAudioFrame, hrms]
  rw [if_pos hq]
  exact ⟨_, rfl, rfl, rfl, rfl, rfl⟩

/-- Dispatch in the idle state once the counter reaches the requirement:
the speech-start branch fires (processing flag clear). -/
lemma vdDispatch_start (cfg : VoiceDetectionConfig) (now : ℕ) (st0 : VDState)
    (s3 : VoiceActivityState) (hspk : s3.isSpeaking = false)
    (hcnt : cfg.speechFramesRequired ≤ s3.speechFrameCount)
    (hproc : st0.processing = false) :
    vdDispatch cfg now st0 s3 =
      ({ pstate := some { s3 with
            isSpeaking := true
            speechStartTime := now
            buffers := []
            totalLength := 0
            speechFrameCount := 0
            silenceFrameCount := 0 }
         debounceDeadline := none
         processing := st0.processing }, [VDEmit.speechStarted]) := by
  unfold vdDispatch
  rw [if_pos (by rw [hspk]; exact ⟨by simp, hcnt⟩)]
  unfold handleSpeechStart
  rw [if_neg (by rw [hproc]; simp)]

/-- Dispatch while speaking with the silence counter below its requirement
and the elapsed time within the maximum: plain continuation. -/
lemma vdDispatch_continue (cfg : VoiceDetectionConfig) (now : ℕ)
    (st0 : VDState) (s3 : VoiceActivityState) (hspk : s3.isSpeaking = true)
    (hsil : s3.silenceFrameCount < cfg.silenceFramesRequired)
    (hdur : now - s3.speechStartTime ≤ cfg.maxSpeechDuration) :
    vdDispatch cfg now st0 s3 = ({ st0 with pstate := some s3 }, []) := by
  unfold vdDispatch
  rw [if_neg (by simp [hspk])]
  rw [if_neg (by simp [hspk]; omega)]
  rw [if_neg (by simp [hspk]; omega)]

/-- Idle detector invariant before speech start: processing flag clear, not
speaking, consecutive speech counter at `c` (a missing participant record
counts as `c = 0`). -/
def PreSpeech (st : VDState) (c : ℕ) : Prop :=
  st.processing = false ∧
  ((st.pstate = none ∧ c = 0) ∨
    ∃ s, st.pstate = some s ∧ s.isSpeaking = false ∧ s.speechFrameCount = c)

/-- Speaking invariant after a detected start at time `t3`: processing flag
clear, speaking, start stamped at `t3`, silence counter zero. -/
def PostSpeech (st : VDState) (t3 : ℕ) : Prop :=
  st.processing = false ∧
  ∃ s, st.pstate = some s ∧ s.isSpeaking = true ∧
    s.speechStartTime = t3 ∧ s.silenceFrameCount = 0

/-- A speech frame before the counter requirement: no emission, counter
incremented. -/
lemma vdStep_pre (cfg : VoiceDetectionConfig) (t : ℕ) (st : VDState)
    (b : List ℕ) (c : ℕ) (hpre : PreSpeech st c)
    (hs : isSpeechFrameB cfg b = true)
    (hlt : c + 1 < cfg.speechFramesRequired) :
    ∃ st', processAudioFrame cfg t st b = some (st', []) ∧
      PreSpeech st' (c + 1) := by
  obtain ⟨q, hrms, hq⟩ := isSpeechFrameB_spec cfg b hs
  obtain ⟨s3, heq, hspk, -, hcnt, -⟩ :=
    processAudioFrame_speech_shape cfg t st b q hrms hq
  obtain ⟨hproc, hcase⟩ := hpre
  have hs0spk : (st.pstate.getD (initParticipantState t)).isSpeaking = false := by
    rcases hcase with ⟨hn, -⟩ | ⟨s, hsome, hsspk, -⟩
    · rw [hn]; rfl
    · rw [hsome]; exact hsspk
  have hs0cnt : (st.pstate.getD (initParticipantState t)).speechFrameCount = c := by
    rcases hcase with ⟨hn, hc⟩ | ⟨s, hsome, -, hscnt⟩
    · rw [hn, hc]; rfl
    · rw [hsome]; exact hscnt
  have hp0 : (if st.pstate.isSome then st.processing else false) = false := by
    split <;> simp [hproc]
  rw [heq, vdDispatch_idle cfg t _ s3 (by rw [hspk]; exact hs0spk)
    (by rw [hcnt, hs0cnt]; exact hlt)]
  refine ⟨_, rfl, hp0, Or.inr ⟨s3, rfl, by rw [hspk]; exact hs0spk,
    by rw [hcnt, hs0cnt]⟩⟩

/-- The speech frame that reaches the counter requirement: `speechStarted`
is emitted and the speaking state is entered with the start stamped at the
frame's time. -/
lemma vdStep_start (cfg : VoiceDetectionConfig) (t : ℕ) (st : VDState)
    (b : List ℕ) (c : ℕ) (hpre : PreSpeech st c)
    (hs : isSpeechFrameB cfg b = true)
    (heqc : c + 1 = cfg.speechFramesRequired) :
    ∃ st', processAudioFrame cfg t st b = some (st', [VDEmit.speechStarted]) ∧
      PostSpeech st' t := by
  obtain ⟨q, hrms, hq⟩ := isSpeechFrameB_spec cfg b hs
  obtain ⟨s3, heq, hspk, -, hcnt, -⟩ :=
    processAudioFrame_speech_shape cfg t st b q hrms hq
  obtain ⟨hproc, hcase⟩ := hpre
  have hs0spk : (st.pstate.getD (initParticipantState t)).isSpeaking = false := by
    rcases hcase with ⟨hn, -⟩ | ⟨s, hsome, hsspk, -⟩
    · rw [hn]; rfl
    · rw [hsome]; exact hsspk
  have hs0cnt : (st.pstate.getD (initParticipantState t)).speechFrameCount = c := by
    rcases hcase with ⟨hn, hc⟩ | ⟨s, hsome, -, hscnt⟩
    · rw [hn, hc]; rfl
    · rw [hsome]; exact hscnt
  have hp0 : (if st.pstate.isSome then st.processing else false) = false := by
    split <;> simp [hproc]
  rw [heq, vdDispatch_start cfg t _ s3 (by rw [hspk]; exact hs0spk)
    (by rw [hcnt, hs0cnt]; omega) hp0]
  exact ⟨_, rfl, hp0, ⟨_, rfl, rfl, rfl, rfl⟩⟩

/-- A speech frame while speaking, within the maximum duration: no
emission, the speaking state persists with its original start stamp. -/
lemma vdStep_post (cfg : VoiceDetectionConfig) (t t3 : ℕ) (st : VDState)
    (b : List ℕ) (hpost : PostSpeech st t3)
    (hs : isSpeechFrameB cfg b = true)
    (hsil : 1 ≤ cfg.silenceFramesRequired)
    (htime : t - t3 ≤ cfg.maxSpeechDuration) :
    ∃ st', processAudioFrame cfg t st b = some (st', []) ∧
      PostSpeech st' t3 := by
  obtain ⟨q, hrms, hq⟩ := isSpeechFrameB_spec cfg b hs
  obtain ⟨s3, heq, hspk, hstart, -, hsilc⟩ :=
    processAudioFrame_speech_shape cfg t st b q hrms hq
  obtain ⟨hproc, s, hsome, hsspk, hsstart, -⟩ := hpost
  have hp0 : (if st.pstate.isSome then st.processing else false) = false := by
    split <;> simp [hproc]
  have hs3spk : s3.isSpeaking = true := by
    rw [hspk, hsome]; exact hsspk
  have hs3start : s3.speechStartTime = t3 := by
    rw [hstart, hsome]; exact hsstart
  rw [heq, vdDispatch_continue cfg t _ s3 hs3spk
    (by rw [hsilc]; omega) (by rw [hs3start]; exact htime)]
  exact ⟨_, rfl, hp0, ⟨s3, rfl, hs3spk, hs3start, hsilc⟩⟩

/-- Claim C5 amended: from a fresh detector, for a participant receiving
only speech-classified frames with `speechFramesRequired = 3` (and a
positive silence requirement), and all frames within `maxSpeechDuration` of
the third frame (no forced cutoff), each prefix of the run emits nothing
before the 3rd frame and exactly one `speechStarted` — and never a
`speechEnded` — from the 3rd frame on: `speechStarted` fires exactly when
the 3rd consecutive speech frame is processed. -/
theorem C5_speech_start_third_frame (cfg : VoiceDetectionConfig)
    (fs : List (ℕ × List ℕ))
    (hreq : cfg.speechFramesRequired = 3)
    (hsil : 1 ≤ cfg.silenceFramesRequired)
    (hsp : ∀ p ∈ fs, isSpeechFrameB cfg p.2 = true)
    (htime : ∀ (j : ℕ) (hj : j < fs.length),
      (fs.get ⟨j, hj⟩).1 - (fs.getD 2 (0, [])).1 ≤ cfg.maxSpeechDuration) :
    ∀ (i : ℕ), i ≤ fs.length → ∃ st',
      vdRun cfg initialVDState (framesToEvents (fs.take i)) =
        some (st', if i < 3 then [] else [VDEmit.speechStarted]) := by
  suffices haux : ∀ (i : ℕ), i ≤ fs.length → ∃ st',
      vdRun cfg initialVDState (framesToEvents (fs.take i)) =
        some (st', if i < 3 then [] else [VDEmit.speechStarted]) ∧
      (if i < 3 then PreSpeech st' i
        else PostSpeech st' (fs.getD 2 (0, [])).1) by
    intro i hi
    obtain ⟨st', hrun, -⟩ := haux i hi
    exact ⟨st', hrun⟩
  intro i
  induction i with
  | zero =>
    intro _
    exact ⟨initialVDState, by simp [framesToEvents, vdRun],
      by simp [PreSpeech, initialVDState]⟩
  | succ i ih =>
    intro hi1
    have hi : i < fs.length := by omega
    obtain ⟨st', hrun, hinv⟩ := ih (by omega)
    have htake : fs.take (i + 1) = fs.take i ++ [fs.get ⟨i, hi⟩] := by
      rw [List.take_succ, List.getElem?_eq_getElem hi]
      rfl
    have hev : framesToEvents (fs.take (i + 1)) =
        framesToEvents (fs.take i) ++
          [VDEvent.frame (fs.get ⟨i, hi⟩).1 (fs.get ⟨i, hi⟩).2] := by
      unfold framesToEvents
      rw [htake, List.map_append]
      rfl
    have hspeech : isSpeechFrameB cfg (fs.get ⟨i, hi⟩).2 = true :=
      hsp _ (List.get_mem fs i hi)
    rcases Nat.lt_trichotomy (i + 1) 3 with hlt | heq3 | hgt
    · -- still ramping: i + 1 < 3
      have hilt : i < 3 := by omega
      rw [if_pos hilt] at hinv
      obtain ⟨st'', hstep, hinv'⟩ := vdStep_pre cfg (fs.get ⟨i, hi⟩).1 st'
        (fs.get ⟨i, hi⟩).2 i hinv hspeech (by omega)
      refine ⟨st'', ?_, ?_⟩
      · rw [hev, vdRun_append, hrun]
        simp only [vdRun, vdStep, hstep, vdRun.eq_1, Option.map_some']
        rw [if_pos hilt, if_pos hlt]
        rfl
      · rw [if_pos hlt]
        exact hinv'
    · -- the third frame: speechStarted fires now
      have hilt : i < 3 := by omega
      have hieq : i = 2 := by omega
      rw [if_pos hilt] at hinv
      obtain ⟨st'', hstep, hinv'⟩ := vdStep_start cfg (fs.get ⟨i, hi⟩).1 st'
        (fs.get ⟨i, hi⟩).2 i hinv hspeech (by omega)
      refine ⟨st'', ?_, ?_⟩
      · rw [hev, vdRun_append, hrun]
        simp only [vdRun, vdStep, hstep, vdRun.eq_1, Option.map_some']
        rw [if_pos hilt, if_neg (by omega)]
        rfl
      · rw [if_neg (by omega)]
        have : (fs.getD 2 (0, [])).1 = (fs.get ⟨i, hi⟩).1 := by
          subst hieq
          rw [List.getD_eq_getElem fs _ hi]
          rfl
        rw [this]
        exact hinv'
    · -- already speaking
      have hige : ¬ i < 3 := by omega
      rw [if_neg hige] at hinv
      obtain ⟨st'', hstep, hinv'⟩ := vdStep_post cfg (fs.get ⟨i, hi⟩).1
        (fs.getD 2 (0, [])).1 st' (fs.get ⟨i, hi⟩).2 hinv hspeech hsil
        (htime i hi)
      refine ⟨st'', ?_, ?_⟩
      · rw [hev, vdRun_append, hrun]
        simp only [vdRun, vdStep, hstep, vdRun.eq_1, Option.map_some']
        rw [if_neg hige, if_neg (by omega)]
        rfl
      · rw [if_neg (by omega)]
        exact hinv'

/-- A 2-byte frame holding sample 6554 (≈ 0.2 · 32768): RMS ≈ 0.2, a speech
frame for the default 0.05 threshold. -/
def speechByteFrame : List ℕ := [154, 25]

/-- Emissions of a detector run. -/
def runEmits (cfg : VoiceDetectionConfig) (st : VDState)
    (evs : List VDEvent) : Option (List VDEmit) :=
  (vdRun cfg st evs).map (fun r => r.2)

/-- The frame timeline refuting claim C5 as stated: seven consecutive
speech frames, the 4th arriving after `maxSpeechDuration` has elapsed. -/
def c5Frames : List (ℕ × List ℕ) :=
  [(0, speechByteFrame), (10, speechByteFrame), (20, speechByteFrame),
   (10021, speechByteFrame), (10031, speechByteFrame),
   (10041, speechByteFrame), (10051, speechByteFrame)]

/-- `speechByteFrame` is speech-classified under the default config. -/
lemma speechByteFrame_is_speech :
    isSpeechFrameB defaultVDConfig speechByteFrame = true := by
  norm_num [isSpeechFrameB, calculateRMSsq, sumSquaresNorm, int16LE,
    rmsDivisor, speechByteFrame, defaultVDConfig]

/-- Counterexample to claim C5 as stated: under the default configuration,
seven consecutive speech frames emit `speechStarted` twice with no
intervening (indeed no) `speechEnded`: the 4th frame exceeds
`maxSpeechDuration`, the forced cutoff discards the 2-byte buffer as
invalid without emitting, the state resets, and frames 5–7 trigger a second
`speechStarted`. -/
theorem C5_counterexample :
    runEmits defaultVDConfig initialVDState (framesToEvents c5Frames) =
      some [VDEmit.speechStarted, VDEmit.speechStarted] ∧
    countStarted [VDEmit.speechStarted, VDEmit.speechStarted] = 2 ∧
    countEnded [VDEmit.speechStarted, VDEmit.speechStarted] = 0 := by
  refine ⟨?_, by decide, by decide⟩
  norm_num [runEmits, vdRun, vdStep, framesToEvents, c5Frames,
    speechByteFrame, processAudioFrame, calculateRMSsq, sumSquaresNorm,
    int16LE, rmsDivisor, vdDispatch, manageBufferSize, manageBufferLoop,
    handleSpeechStart, handlePotentialSpeechEnd, setupDebouncedProcessing,
    processSpeechTurnVD, resetParticipantState, isValidAudioBuffer,
    initParticipantState, initialVDState, defaultVDConfig, maxBufferSize]

/-- The compliant frame timeline for the C5 witness: four speech frames,
10 ms apart. -/
def c5WitnessFrames : List (ℕ × List ℕ) :=
  [(0, speechByteFrame), (10, speechByteFrame), (20, speechByteFrame),
   (30, speechByteFrame)]

/-- Witness for the amended C5 on four well-timed speech frames. -/
theorem C5_speech_start_third_frame_witness :
    ∃ st', vdRun defaultVDConfig initialVDState
      (framesToEvents (c5WitnessFrames.take 4)) =
        some (st', if 4 < 3 then [] else [VDEmit.speechStarted]) := by
  refine C5_speech_start_third_frame defaultVDConfig c5WitnessFrames rfl
    (by norm_num [defaultVDConfig]) ?_ ?_ 4 (by norm_num [c5WitnessFrames])
  · intro p hp
    have hmem : p = (0, speechByteFrame) ∨ p = (10, speechByteFrame) ∨
        p = (20, speechByteFrame) ∨ p = (30, speechByteFrame) := by
      simpa [c5WitnessFrames] using hp
    rcases hmem with h | h | h | h <;>
      · subst h
        exact speechByteFrame_is_speech
  · intro j hj
    have hj4 : j < 4 := by simpa [c5WitnessFrames] using hj
    interval_cases j <;> norm_num [c5WitnessFrames, defaultVDConfig]

/-! ### Silence/debounce finalization scenario -/

/-- A 16-byte frame of sample 164 (≈ 0.005 · 32768): RMS ≈ 0.005, a silence
frame for threshold 0.01. -/
def silenceByteFrame : List ℕ :=
  [164, 0, 164, 0, 164, 0, 164, 0, 164, 0, 164, 0, 164, 0, 164, 0]

/-- The claim C3 configuration: defaults with `silenceFramesRequired = 150`
(silence threshold already 0.01). -/
def c3Config : VoiceDetectionConfig :=
  { defaultVDConfig with silenceFramesRequired := 150 }

/-- The silence stretch of the C3 scenario: frames at 30 + 10·i ms for
i ∈ [k, k+n). -/
def c3SilenceEvents (k n : ℕ) : List VDEvent :=
  framesToEvents ((List.range' k n).map (fun i => (30 + 10 * i, silenceByteFrame)))

/-- The claim C3 scenario timeline: speech start (3 speech frames at 0, 10,
20 ms), 150 consecutive silence frames at 30..1520 ms, then the debounce
timer fires at 1520 + 1500 = 3020 ms with no further speech. -/
def c3Events : List VDEvent :=
  framesToEvents [(0, speechByteFrame), (10, speechByteFrame),
      (20, speechByteFrame)] ++
    (c3SilenceEvents 0 150 ++ [VDEvent.fire 3020])

/-- RMS of the silence scenario frame. -/
lemma calculateRMSsq_silenceByteFrame :
    calculateRMSsq silenceByteFrame = some (1681 / 67108864) := by
  norm_num [calculateRMSsq, sumSquaresNorm, int16LE, rmsDivisor,
    silenceByteFrame]

/-- RMS of the speech scenario frame. -/
lemma calculateRMSsq_speechByteFrame :
    calculateRMSsq speechByteFrame = some (10738729 / 268435456) := by
  norm_num [calculateRMSsq, sumSquaresNorm, int16LE, rmsDivisor,
    speechByteFrame]

/-- An under-ceiling total leaves the eviction loop inert. -/
lemma manageBufferLoop_le (bufs : List (List ℕ)) (total : ℕ)
    (h : total ≤ maxBufferSize) :
    manageBufferLoop bufs total = (bufs, total) := by
  match bufs with
  | [] => rfl
  | [b] => rfl
  | b :: b' :: rest =>
    simp only [manageBufferLoop]
    rw [if_neg (by omega)]

/-- Shape of `processAudioFrame` on a silence-classified frame: the silence
counter increments, the speech counter resets, buffering and ceiling
management proceed, speaking flag and start time carry over. -/
lemma processAudioFrame_silence_shape (cfg : VoiceDetectionConfig) (t : ℕ)
    (st : VDState) (buffer : List ℕ) (q : ℚ)
    (hrms : calculateRMSsq buffer = some q)
    (hqs : ¬ cfg.speechThreshold ^ 2 < q)
    (hqsil : q < cfg.silenceThreshold ^ 2) :
    ∃ s3 : VoiceActivityState,
      processAudioFrame cfg t st buffer = some (vdDispatch cfg t
        { pstate := some (st.pstate.getD (initParticipantState t))
          debounceDeadline := st.debounceDeadline
          processing := if st.pstate.isSome then st.processing else false } s3) ∧
      s3.isSpeaking = (st.pstate.getD (initParticipantState t)).isSpeaking ∧
      s3.speechStartTime = (st.pstate.getD (initParticipantState t)).speechStartTime ∧
      s3.silenceFrameCount = (st.pstate.getD (initParticipantState t)).silenceFrameCount + 1 ∧
      s3.speechFrameCount = 0 ∧
      s3.buffers = (manageBufferLoop
        ((st.pstate.getD (initParticipantState t)).buffers ++ [buffer])
        ((st.pstate.getD (initParticipantState t)).totalLength + buffer.length)).1 ∧
      s3.totalLength = (manageBufferLoop
        ((st.pstate.getD (initParticipantState t)).buffers ++ [buffer])
        ((st.pstate.getD (initParticipantState t)).totalLength + buffer.length)).2 := by
  simp only [processAudioFrame, hrms]
  rw [if_neg hqs, if_pos hqsil]
  exact ⟨_, rfl, rfl, rfl, rfl, rfl, rfl, rfl⟩

/-- Dispatch when the silence requirement is met while speaking: the
potential-speech-end branch marks not speaking and schedules the debounce
finalize (processing flag clear). -/
lemma vdDispatch_cross (cfg : VoiceDetectionConfig) (now : ℕ)
    (st0 : VDState) (s3 : VoiceActivityState) (hspk : s3.isSpeaking = true)
    (hcnt : cfg.silenceFramesRequired ≤ s3.silenceFrameCount)
    (hproc : st0.processing = false) :
    vdDispatch cfg now st0 s3 =
      ({ pstate := some { s3 with isSpeaking := false }
         debounceDeadline := some (now + cfg.debounceThreshold)
         processing := st0.processing }, []) := by
  unfold vdDispatch
  rw [if_neg (by simp [hspk])]
  rw [if_pos ⟨by simp [hspk], hcnt⟩]
  unfold handlePotentialSpeechEnd setupDebouncedProcessing
  rw [if_neg (by simp [hproc])]

/-- `processSpeechTurn` on a long-enough, nonempty, valid buffer: emit
`speechEnded` then `speechTurn` with the elapsed duration and reset. -/
lemma processSpeechTurnVD_emit (cfg : VoiceDetectionConfig) (now : ℕ)
    (s : VoiceActivityState)
    (h1 : ¬ (now - s.speechStartTime < cfg.minSpeechDuration))
    (h2 : ¬ (s.buffers = [] ∨ s.totalLength = 0))
    (h3 : isValidAudioBuffer s.buffers.flatten = true) :
    processSpeechTurnVD cfg now s =
      (resetParticipantState { s with speechEndTime := now },
       [VDEmit.speechEnded s.buffers.flatten,
        VDEmit.speechTurn s.buffers.flatten (now - s.speechStartTime)]) := by
  unfold processSpeechTurnVD
  rw [if_neg h1, if_neg h2, if_neg (by simp [h3])]

/-- Length of a flattened replicated frame list. -/
lemma flatten_replicate_length (n : ℕ) (l : List ℕ) :
    (List.replicate n l).flatten.length = n * l.length := by
  induction n with
  | zero => simp
  | succ m ih =>
    simp [List.replicate_succ, ih, Nat.succ_mul, Nat.add_comm]

/-- The concatenated 150-frame silence buffer passes the validity check
(2400 bytes of raw PCM, no container header). -/
lemma c3_buffer_valid :
    isValidAudioBuffer (List.replicate 150 silenceByteFrame).flatten = true := by
  have hlen : (List.replicate 150 silenceByteFrame).flatten.length = 2400 := by
    rw [flatten_replicate_length]
    rfl
  have htake : (List.replicate 150 silenceByteFrame).flatten.take 4
      = [164, 0, 164, 0] := by
    rw [show (150 : ℕ) = 149 + 1 from rfl, List.replicate_succ,
      List.flatten_cons,
      List.take_append_of_le_length (by norm_num [silenceByteFrame])]
    rfl
  unfold isValidAudioBuffer
  rw [if_neg (by rw [hlen]; norm_num)]
  rw [if_neg (by
    rintro ⟨-, habs⟩
    rw [htake] at habs
    simp at habs)]
  rw [hlen]
  rfl

/-- Invariant along the C3 silence stretch: speaking since 20 ms, `k`
consecutive silence frames counted and buffered, no pending timer. -/
def C3Ramp (st : VDState) (k : ℕ) : Prop :=
  st.processing = false ∧ st.debounceDeadline = none ∧
  ∃ s, st.pstate = some s ∧ s.isSpeaking = true ∧ s.speechStartTime = 20 ∧
    s.silenceFrameCount = k ∧ s.buffers = List.replicate k silenceByteFrame ∧
    s.totalLength = 16 * k

/-- One silence frame during the ramp (below the 150-frame requirement,
within the maximum duration): no emission, counter and buffer grow. -/
lemma c3_silence_step (st : VDState) (k : ℕ) (hk : k + 1 < 150) (t : ℕ)
    (ht : t - 20 ≤ 10000) (h : C3Ramp st k) :
    ∃ st', processAudioFrame c3Config t st silenceByteFrame =
      some (st', []) ∧ C3Ramp st' (k + 1) := by
  obtain ⟨hproc, hdl, s, hsome, hspk, hstart, hsil, hbufs, htotal⟩ := h
  obtain ⟨s3, heq, h1, h2, h3, h4, h5, h6⟩ :=
    processAudioFrame_silence_shape c3Config t st silenceByteFrame _
      calculateRMSsq_silenceByteFrame
      (by norm_num [c3Config, defaultVDConfig])
      (by norm_num [c3Config, defaultVDConfig])
  rw [hsome] at h1 h2 h3 h5 h6
  simp only [Option.getD_some] at h1 h2 h3 h5 h6
  have hloop : manageBufferLoop (s.buffers ++ [silenceByteFrame])
      (s.totalLength + silenceByteFrame.length)
      = (s.buffers ++ [silenceByteFrame], s.totalLength + silenceByteFrame.length) :=
    manageBufferLoop_le _ _ (by
      rw [htotal]
      norm_num [silenceByteFrame, maxBufferSize]
      omega)
  rw [hloop] at h5 h6
  have hp0 : (if st.pstate.isSome then st.processing else false) = false := by
    rw [hsome]
    simpa using hproc
  have hcont := vdDispatch_continue c3Config t
    { pstate := some (st.pstate.getD (initParticipantState t))
      debounceDeadline := st.debounceDeadline
      processing := if st.pstate.isSome then st.processing else false } s3
    (by rw [h1, hspk]) (by rw [h3, hsil]; exact hk)
    (by rw [h2, hstart]; exact ht)
  rw [heq, hcont]
  refine ⟨_, rfl, by simpa using hp0, by simpa using hdl,
    s3, rfl, by rw [h1, hspk], by rw [h2, hstart],
    by rw [h3, hsil], ?_, ?_⟩
  · rw [h5, hbufs, List.replicate_succ' k silenceByteFrame]
  · rw [h6, htotal]
    norm_num [silenceByteFrame]
    omega

/-- Running the silence stretch from count `k` for `n` frames (staying
below the 150-frame requirement): no emission, count reaches `k + n`. -/
lemma c3_ramp (n : ℕ) : ∀ (k : ℕ) (st : VDState), k + n ≤ 149 →
    C3Ramp st k →
    ∃ st', vdRun c3Config st (c3SilenceEvents k n) = some (st', []) ∧
      C3Ramp st' (k + n) := by
  induction n with
  | zero =>
    intro k st _ h
    exact ⟨st, rfl, h⟩
  | succ m ih =>
    intro k st hle h
    have hev : c3SilenceEvents k (m + 1) =
        VDEvent.frame (30 + 10 * k) silenceByteFrame :: c3SilenceEvents (k + 1) m := by
      unfold c3SilenceEvents framesToEvents
      rw [List.range'_succ]
      rfl
    obtain ⟨st1, hstep, h1⟩ := c3_silence_step st k (by omega) (30 + 10 * k)
      (by omega) h
    obtain ⟨st2, hrun2, h2⟩ := ih (k + 1) st1 (by omega) h1
    rw [hev]
    simp only [vdRun, vdStep, hstep, hrun2, Option.map_some']
    refine ⟨st2, rfl, ?_⟩
    have harith : k + (m + 1) = (k + 1) + m := by omega
    rw [harith]
    exact h2

/-- The 150th silence frame at 1520 ms: the silence requirement is met, the
detector marks not speaking and schedules the debounce finalize at
3020 ms, with the 150-frame buffer retained. -/
lemma c3_cross_step (st : VDState) (h : C3Ramp st 149) :
    ∃ s : VoiceActivityState,
      processAudioFrame c3Config 1520 st silenceByteFrame =
        some (VDState.mk (some s) (some 3020) false, []) ∧
      s.isSpeaking = false ∧ s.speechStartTime = 20 ∧
      s.buffers = List.replicate 150 silenceByteFrame ∧
      s.totalLength = 2400 := by
  obtain ⟨hproc, hdl, s, hsome, hspk, hstart, hsil, hbufs, htotal⟩ := h
  obtain ⟨s3, heq, h1, h2, h3, h4, h5, h6⟩ :=
    processAudioFrame_silence_shape c3Config 1520 st silenceByteFrame _
      calculateRMSsq_silenceByteFrame
      (by norm_num [c3Config, defaultVDConfig])
      (by norm_num [c3Config, defaultVDConfig])
  rw [hsome] at h1 h2 h3 h5 h6
  simp only [Option.getD_some] at h1 h2 h3 h5 h6
  have hloop : manageBufferLoop (s.buffers ++ [silenceByteFrame])
      (s.totalLength + silenceByteFrame.length)
      = (s.buffers ++ [silenceByteFrame],
         s.totalLength + silenceByteFrame.length) :=
    manageBufferLoop_le _ _ (by
      rw [htotal]
      norm_num [silenceByteFrame, maxBufferSize])
  rw [hloop] at h5 h6
  have hp0 : (if st.pstate.isSome then st.processing else false) = false := by
    rw [hsome]
    simpa using hproc
  have hcross := vdDispatch_cross c3Config 1520
    { pstate := some (st.pstate.getD (initParticipantState 1520))
      debounceDeadline := st.debounceDeadline
      processing := if st.pstate.isSome then st.processing else false } s3
    (by rw [h1, hspk]) (by rw [h3, hsil]; norm_num [c3Config, defaultVDConfig]) hp0
  rw [heq, hcross]
  refine ⟨{ s3 with isSpeaking := false }, ?_, rfl,
    by simpa using h2.trans hstart, ?_, ?_⟩
  · simp only [hp0]
    rfl
  · show s3.buffers = List.replicate 150 silenceByteFrame
    rw [h5, hbufs, List.replicate_succ' 149 silenceByteFrame]
  · show s3.totalLength = 2400
    rw [h6, htotal]
    norm_num [silenceByteFrame]

/-- Detector state right after the C3 speech start at 20 ms. -/
def c3St3 : VDState :=
  VDState.mk
    (some (VoiceActivityState.mk true 20 0 [] 0 20 0 0)) none false

/-- Evaluated speech-start phase of the C3 scenario. -/
lemma c3_start_eval :
    vdRun c3Config initialVDState (framesToEvents
      [(0, speechByteFrame), (10, speechByteFrame), (20, speechByteFrame)])
      = some (c3St3, [VDEmit.speechStarted]) := by
  norm_num [vdRun, vdStep, framesToEvents, processAudioFrame,
    calculateRMSsq_speechByteFrame, vdDispatch, manageBufferSize,
    manageBufferLoop, handleSpeechStart, initParticipantState,
    initialVDState, c3Config, defaultVDConfig, maxBufferSize, c3St3]

/-- Splitting a run after a known first stage. -/
lemma vdRun_append_some (cfg : VoiceDetectionConfig) (st : VDState)
    (l1 l2 : List VDEvent) (st1 : VDState) (ems1 : List VDEmit)
    (h1 : vdRun cfg st l1 = some (st1, ems1)) :
    vdRun cfg st (l1 ++ l2) =
      (vdRun cfg st1 l2).map (fun r2 => (r2.1, ems1 ++ r2.2)) := by
  rw [vdRun_append, h1]

/-- Unfolding a run after a known first step. -/
lemma vdRun_cons_some (cfg : VoiceDetectionConfig) (st : VDState)
    (e : VDEvent) (rest : List VDEvent) (st1 : VDState) (ems1 : List VDEmit)
    (h : vdStep cfg st e = some (st1, ems1)) :
    vdRun cfg st (e :: rest) =
      (vdRun cfg st1 rest).map (fun r2 => (r2.1, ems1 ++ r2.2)) := by
  simp only [vdRun, h]

/-- The C3 run produces exactly the three events `speechStarted`,
`speechEnded`, `speechTurn`, the turn reporting duration 3000 ms. -/
lemma c3_run_pair :
    ∃ stf, vdRun c3Config initialVDState c3Events =
      some (stf, [VDEmit.speechStarted,
        VDEmit.speechEnded (List.replicate 150 silenceByteFrame).flatten,
        VDEmit.speechTurn (List.replicate 150 silenceByteFrame).flatten 3000]) := by
  have hramp0 : C3Ramp c3St3 0 :=
    ⟨rfl, rfl, _, rfl, rfl, rfl, rfl, rfl, rfl⟩
  obtain ⟨stR, hrampRun, hramp149⟩ := c3_ramp 149 0 c3St3 (by norm_num) hramp0
  obtain ⟨sC, hcrossRun, hCspk, hCstart, hCbufs, hCtot⟩ :=
    c3_cross_step stR hramp149
  have hemit := processSpeechTurnVD_emit c3Config 3020 sC
    (by rw [hCstart]; norm_num [c3Config, defaultVDConfig])
    (by simp [hCbufs, hCtot])
    (by rw [hCbufs]; exact c3_buffer_valid)
  have hsplit : c3SilenceEvents 0 150 =
      c3SilenceEvents 0 149 ++ c3SilenceEvents 149 1 := by
    have hr : List.range' 0 150 = List.range' 0 149 ++ List.range' 149 1 := by
      have h2 := List.range'_append 0 149 1 1
      simpa using h2.symm
    unfold c3SilenceEvents framesToEvents
    rw [hr, List.map_append, List.map_append]
  have hev1 : c3SilenceEvents 149 1 = [VDEvent.frame 1520 silenceByteFrame] := by
    unfold c3SilenceEvents framesToEvents
    rfl
  have hfirestep : vdStep c3Config (VDState.mk (some sC) (some 3020) false)
      (VDEvent.fire 3020) =
      some (VDState.mk
          (some (resetParticipantState { sC with speechEndTime := 3020 }))
          none false,
        [VDEmit.speechEnded (List.replicate 150 silenceByteFrame).flatten,
         VDEmit.speechTurn (List.replicate 150 silenceByteFrame).flatten 3000]) := by
    have hred : fireDebounce c3Config 3020 (VDState.mk (some sC) (some 3020) false)
        = (VDState.mk (some (processSpeechTurnVD c3Config 3020 sC).1) none false,
           (processSpeechTurnVD c3Config 3020 sC).2) := by
      unfold fireDebounce
      rfl
    show some (fireDebounce c3Config 3020 (VDState.mk (some sC) (some 3020) false)) = _
    rw [hred, hemit, hCbufs, hCstart]
  have hcrossStep : vdStep c3Config stR (VDEvent.frame 1520 silenceByteFrame)
      = some (VDState.mk (some sC) (some 3020) false, []) := hcrossRun
  refine ⟨VDState.mk
    (some (resetParticipantState { sC with speechEndTime := 3020 }))
    none false, ?_⟩
  show vdRun c3Config initialVDState
    (framesToEvents [(0, speechByteFrame), (10, speechByteFrame),
        (20, speechByteFrame)] ++
      (c3SilenceEvents 0 150 ++ [VDEvent.fire 3020])) = _
  rw [vdRun_append_some c3Config initialVDState _ _ _ _ c3_start_eval]
  rw [hsplit, List.append_assoc]
  rw [vdRun_append_some c3Config c3St3 _ _ _ _ hrampRun]
  rw [hev1, List.singleton_append]
  rw [vdRun_cons_some c3Config stR _ _ _ _ hcrossStep]
  rw [vdRun_cons_some c3Config _ _ _ _ _ hfirestep]
  simp [vdRun]

/-- Counterexample to claim C3 as stated: in the claim's scenario (speech
frames at 0, 10, 20 ms, 150 silence frames at 30..1520 ms, debounce elapse)
the single emitted `speechTurn` reports duration 3000 ms, not the elapsed
time 1520 ms from the first speech frame to the 150th silence frame: the
source computes the duration at the debounce fire, so the debounce wait is
included. -/
theorem C3_counterexample :
    (runEmits c3Config initialVDState c3Events).map turnDurations
      = some [3000] ∧ (3000 : ℕ) ≠ 1520 - 0 := by
  obtain ⟨stf, h⟩ := c3_run_pair
  refine ⟨?_, by norm_num⟩
  unfold runEmits
  rw [h]
  simp [turnDurations]

/-- Claim C3 amended: in the scenario exactly one `speechTurn` (and one
`speechStarted`, one `speechEnded`) is emitted, and its reported duration
equals the elapsed time from the speech-start detection frame (the 3rd
speech frame, at 20 ms) to the 150th silence frame (1520 ms) plus the
debounce interval (1500 ms): the duration is measured when the debounce
timer fires. -/
theorem C3_silence_debounce_turn :
    (runEmits c3Config initialVDState c3Events).map
        (fun ems => (turnDurations ems, countStarted ems, countEnded ems))
      = some ([(1520 - 20) + 1500], 1, 1) := by
  obtain ⟨stf, h⟩ := c3_run_pair
  unfold runEmits
  rw [h]
  simp [turnDurations, countStarted, countEnded]

/-! ### Turn-duration bounds -/

/-- Any `speechTurn` emitted by `processSpeechTurn` reports exactly
`now - speechStartTime`, and only after the minimum-duration guard. -/
lemma processSpeechTurnVD_turn_mem (cfg : VoiceDetectionConfig) (now : ℕ)
    (s : VoiceActivityState) (b : List ℕ) (d : ℕ)
    (h : VDEmit.speechTurn b d ∈ (processSpeechTurnVD cfg now s).2) :
    d = now - s.speechStartTime ∧ cfg.minSpeechDuration ≤ d := by
  simp only [processSpeechTurnVD] at h
  split at h
  · simp at h
  · split at h
    · simp at h
    · split at h
      · simp at h
      · simp only [List.mem_cons, List.mem_singleton] at h
        rcases h with h | h | h
        · exact absurd h (by simp)
        · obtain ⟨-, hd⟩ := VDEmit.speechTurn.inj h.symm
          subst hd
          exact ⟨rfl, by omega⟩
        · simp at h

/-- `processSpeechTurn` always leaves a non-speaking participant record. -/
lemma processSpeechTurnVD_not_speaking (cfg : VoiceDetectionConfig)
    (now : ℕ) (s : VoiceActivityState) :
    (processSpeechTurnVD cfg now s).1.isSpeaking = false := by
  simp only [processSpeechTurnVD, resetParticipantState]
  split
  · rfl
  · split
    · rfl
    · split <;> rfl

/-- Invariant carried by the duration-bounds proof: processing flag clear;
no timer without a participant record; while speaking, the last frame is
within `maxSpeechDuration` of the start and no timer pends; a pending
deadline is bounded by start + max + gap + debounce. -/
def C2Inv (cfg : VoiceDetectionConfig) (gap : ℕ) (st : VDState) : Prop :=
  st.processing = false ∧
  (st.pstate = none → st.debounceDeadline = none) ∧
  (∀ s, st.pstate = some s → s.isSpeaking = true →
    s.lastActivity - s.speechStartTime ≤ cfg.maxSpeechDuration ∧
    st.debounceDeadline = none) ∧
  (∀ dl, st.debounceDeadline = some dl → ∃ s, st.pstate = some s ∧
    dl ≤ s.speechStartTime + cfg.maxSpeechDuration + cfg.debounceThreshold + gap)

/-- The fresh detector satisfies the invariant. -/
lemma C2Inv_initial (cfg : VoiceDetectionConfig) (gap : ℕ) :
    C2Inv cfg gap initialVDState :=
  ⟨rfl, fun _ => rfl, fun s hs => by simp [initialVDState] at hs,
   fun dl hdl => by simp [initialVDState] at hdl⟩

/-- Branch analysis of `vdDispatch` for the duration-bounds invariant: with
the processing flag clear, the counted state stamped at `now`, the speaking
bound and the deadline bound, every branch preserves the invariant and any
emitted turn's duration is between the minimum and
`maxSpeechDuration + debounceThreshold + gap`. -/
lemma vdDispatch_inv (cfg : VoiceDetectionConfig) (gap now : ℕ)
    (st0 : VDState) (s3 : VoiceActivityState)
    (hp0 : st0.processing = false)
    (hla : s3.lastActivity = now)
    (hsp : s3.isSpeaking = true →
      now ≤ s3.speechStartTime + cfg.maxSpeechDuration + gap ∧
      st0.debounceDeadline = none)
    (hdl : ∀ dl, st0.debounceDeadline = some dl →
      dl ≤ s3.speechStartTime + cfg.maxSpeechDuration + cfg.debounceThreshold + gap) :
    C2Inv cfg gap (vdDispatch cfg now st0 s3).1 ∧
    ∀ b d, VDEmit.speechTurn b d ∈ (vdDispatch cfg now st0 s3).2 →
      cfg.minSpeechDuration ≤ d ∧
      d ≤ cfg.maxSpeechDuration + cfg.debounceThreshold + gap := by
  unfold vdDispatch
  by_cases h1 : ¬ s3.isSpeaking = true ∧ cfg.speechFramesRequired ≤ s3.speechFrameCount
  · rw [if_pos h1]
    unfold handleSpeechStart
    rw [if_neg (by rw [hp0]; exact Bool.false_ne_true)]
    refine ⟨⟨hp0, ?_, ?_, ?_⟩, ?_⟩
    · intro h; simp at h
    · intro s hs hspk
      obtain rfl := Option.some.inj hs
      exact ⟨by simp; omega, rfl⟩
    · intro dl hdl'; simp at hdl'
    · intro b d hmem; simp at hmem
  · rw [if_neg h1]
    by_cases h2 : s3.isSpeaking = true ∧ cfg.silenceFramesRequired ≤ s3.silenceFrameCount
    · rw [if_pos h2]
      unfold handlePotentialSpeechEnd setupDebouncedProcessing
      rw [if_neg (by rw [hp0]; exact Bool.false_ne_true)]
      refine ⟨⟨hp0, ?_, ?_, ?_⟩, ?_⟩
      · intro h; simp at h
      · intro s hs hspk
        obtain rfl := Option.some.inj hs
        simp at hspk
      · intro dl hdl'
        obtain rfl := Option.some.inj hdl'
        refine ⟨_, rfl, ?_⟩
        have := (hsp h2.1).1
        simp only
        omega
      · intro b d hmem; simp at hmem
    · rw [if_neg h2]
      by_cases h3 : s3.isSpeaking = true ∧ cfg.maxSpeechDuration < now - s3.speechStartTime
      · rw [if_pos h3]
        refine ⟨⟨hp0, ?_, ?_, ?_⟩, ?_⟩
        · intro h; simp at h
        · intro s hs hspk
          obtain rfl := Option.some.inj hs
          rw [processSpeechTurnVD_not_speaking] at hspk
          exact absurd hspk Bool.false_ne_true
        · intro dl hdl'
          rw [(hsp h3.1).2] at hdl'
          exact absurd hdl' (by simp)
        · intro b d hmem
          obtain ⟨hd, hmin⟩ := processSpeechTurnVD_turn_mem cfg now s3 b d hmem
          have := (hsp h3.1).1
          exact ⟨hmin, by omega⟩
      · rw [if_neg h3]
        refine ⟨⟨hp0, ?_, ?_, ?_⟩, ?_⟩
        · intro h; simp at h
        · intro s hs hspk
          obtain rfl := Option.some.inj hs
          refine ⟨?_, (hsp hspk).2⟩
          have hnot : ¬ cfg.maxSpeechDuration < now - s3.speechStartTime :=
            fun hc => h3 ⟨hspk, hc⟩
          rw [hla]
          omega
        · intro dl hdl'
          exact ⟨s3, rfl, hdl dl hdl'⟩
        · intro b d hmem; simp at hmem

/-- A cadence-respecting frame preserves the duration-bounds invariant and
only emits turns within the bounds. -/
lemma C2_frame_step (cfg : VoiceDetectionConfig) (gap now : ℕ)
    (buf : List ℕ) (st st1 : VDState) (ems1 : List VDEmit)
    (hInv : C2Inv cfg gap st)
    (hgap : frameGapOK gap st now = true)
    (hstep : processAudioFrame cfg now st buf = some (st1, ems1)) :
    C2Inv cfg gap st1 ∧ ∀ b d, VDEmit.speechTurn b d ∈ ems1 →
      cfg.minSpeechDuration ≤ d ∧
      d ≤ cfg.maxSpeechDuration + cfg.debounceThreshold + gap := by
  cases hq : calculateRMSsq buf with
  | none => simp [processAudioFrame, hq] at hstep
  | some q =>
    obtain ⟨s3, heq, hbuf, htot, hspk, hstart, hlast, hcnt⟩ :=
      processAudioFrame_shape cfg now st buf q hq
    rw [heq] at hstep
    have hpair := Option.some.inj hstep
    have hkey : (st.pstate.getD (initParticipantState now)).isSpeaking = true →
        now ≤ (st.pstate.getD (initParticipantState now)).speechStartTime +
          cfg.maxSpeechDuration + gap ∧ st.debounceDeadline = none := by
      intro hspk0
      cases hps : st.pstate with
      | none =>
        rw [hps] at hspk0
        simp [initParticipantState] at hspk0
      | some s' =>
        have hg0 : st.pstate.getD (initParticipantState now) = s' := by
          rw [hps]; rfl
        rw [hg0] at hspk0
        simp only [Option.getD_some]
        obtain ⟨hla', hdl'⟩ := hInv.2.2.1 s' hps hspk0
        have hg : now ≤ s'.lastActivity + gap := by
          unfold frameGapOK at hgap
          rw [hps] at hgap
          simp [hspk0] at hgap
          exact hgap
        exact ⟨by omega, hdl'⟩
    have hst1 : st1 = (vdDispatch cfg now
        { pstate := some (st.pstate.getD (initParticipantState now))
          debounceDeadline := st.debounceDeadline
          processing := if st.pstate.isSome then st.processing else false } s3).1 := by
      rw [hpair]
    have hems1 : ems1 = (vdDispatch cfg now
        { pstate := some (st.pstate.getD (initParticipantState now))
          debounceDeadline := st.debounceDeadline
          processing := if st.pstate.isSome then st.processing else false } s3).2 := by
      rw [hpair]
    rw [hst1, hems1]
    apply vdDispatch_inv
    · show (if st.pstate.isSome then st.processing else false) = false
      rw [hInv.1, ite_self]
    · exact hlast
    · intro h
      rw [hspk] at h
      obtain ⟨hnow, hdl0⟩ := hkey h
      exact ⟨by rw [hstart]; exact hnow, hdl0⟩
    · intro dl hdl'
      obtain ⟨s', hps', hble⟩ := hInv.2.2.2 dl hdl'
      have hg0 : st.pstate.getD (initParticipantState now) = s' := by
        rw [hps']; rfl
      rw [hstart, hg0]
      exact hble

/-- The debounce callback preserves the duration-bounds invariant and only
emits turns within the bounds. -/
lemma C2_fire_step (cfg : VoiceDetectionConfig) (gap now : ℕ)
    (st st1 : VDState) (ems1 : List VDEmit)
    (hInv : C2Inv cfg gap st)
    (hstep : fireDebounce cfg now st = (st1, ems1)) :
    C2Inv cfg gap st1 ∧ ∀ b d, VDEmit.speechTurn b d ∈ ems1 →
      cfg.minSpeechDuration ≤ d ∧
      d ≤ cfg.maxSpeechDuration + cfg.debounceThreshold + gap := by
  unfold fireDebounce at hstep
  cases hdl : st.debounceDeadline with
  | none =>
    rw [hdl] at hstep
    cases hps : st.pstate with
    | none =>
      rw [hps] at hstep
      obtain ⟨h1, h2⟩ := Prod.mk.inj hstep
      rw [← h1, ← h2]
      exact ⟨hInv, fun b d hmem => absurd hmem (by simp)⟩
    | some s =>
      rw [hps] at hstep
      obtain ⟨h1, h2⟩ := Prod.mk.inj hstep
      rw [← h1, ← h2]
      exact ⟨hInv, fun b d hmem => absurd hmem (by simp)⟩
  | some dl =>
    rw [hdl] at hstep
    cases hps : st.pstate with
    | none =>
      rw [hps] at hstep
      obtain ⟨h1, h2⟩ := Prod.mk.inj hstep
      rw [← h1, ← h2]
      exact ⟨hInv, fun b d hmem => absurd hmem (by simp)⟩
    | some s =>
      rw [hps] at hstep
      have hstep2 : (if dl = now then
            (({ pstate := some (processSpeechTurnVD cfg now s).1
                debounceDeadline := none
                processing := false } : VDState),
              (processSpeechTurnVD cfg now s).2)
          else (st, [])) = (st1, ems1) := hstep
      by_cases heq : dl = now
      · rw [if_pos heq] at hstep2
        obtain ⟨h1, h2⟩ := Prod.mk.inj hstep2
        rw [← h1, ← h2]
        obtain ⟨s', hps', hble⟩ := hInv.2.2.2 dl hdl
        have hss : s' = s := by
          rw [hps] at hps'
          exact (Option.some.inj hps').symm
        rw [hss] at hble
        refine ⟨⟨rfl, ?_, ?_, ?_⟩, ?_⟩
        · intro h; simp at h
        · intro s2 hs2 hspk2
          obtain rfl := Option.some.inj hs2
          rw [processSpeechTurnVD_not_speaking] at hspk2
          exact absurd hspk2 Bool.false_ne_true
        · intro dl2 hdl2; simp at hdl2
        · intro b d hmem
          obtain ⟨hd, hmin⟩ := processSpeechTurnVD_turn_mem cfg now s b d hmem
          exact ⟨hmin, by omega⟩
      · rw [if_neg heq] at hstep2
        obtain ⟨h1, h2⟩ := Prod.mk.inj hstep2
        rw [← h1, ← h2]
        exact ⟨hInv, fun b d hmem => absurd hmem (by simp)⟩

/-- Over any cadence-respecting event run from an invariant state, the
invariant holds at the end and every emitted turn's duration is within the
bounds. -/
lemma C2_run (cfg : VoiceDetectionConfig) (gap : ℕ) (evs : List VDEvent) :
    ∀ (st st' : VDState) (ems : List VDEmit),
      C2Inv cfg gap st →
      vdRunGap cfg gap st evs = some (st', ems) →
      ∀ b d, VDEmit.speechTurn b d ∈ ems →
        cfg.minSpeechDuration ≤ d ∧
        d ≤ cfg.maxSpeechDuration + cfg.debounceThreshold + gap := by
  induction evs with
  | nil =>
    intro st st' ems hInv hrun b d hmem
    obtain ⟨h1, h2⟩ := Prod.mk.inj (Option.some.inj hrun)
    rw [← h2] at hmem
    simp at hmem
  | cons e rest ih =>
    intro st st' ems hInv hrun b d hmem
    cases e with
    | frame now buf =>
      simp only [vdRunGap, vdStep] at hrun
      cases hok : frameGapOK gap st now with
      | false => rw [hok] at hrun; simp at hrun
      | true =>
        rw [hok, if_pos rfl] at hrun
        cases hstep : processAudioFrame cfg now st buf with
        | none => rw [hstep] at hrun; simp at hrun
        | some p =>
          obtain ⟨st1, ems1⟩ := p
          rw [hstep] at hrun
          simp only [] at hrun
          cases hrest : vdRunGap cfg gap st1 rest with
          | none => rw [hrest] at hrun; simp at hrun
          | some r =>
            obtain ⟨st2, ems2⟩ := r
            rw [hrest] at hrun
            simp only [Option.map_some'] at hrun
            obtain ⟨h1, h2⟩ := Prod.mk.inj (Option.some.inj hrun)
            rw [← h2] at hmem
            obtain ⟨hInv1, hbnd1⟩ :=
              C2_frame_step cfg gap now buf st st1 ems1 hInv hok hstep
            rcases List.mem_append.mp hmem with hmem1 | hmem2
            · exact hbnd1 b d hmem1
            · exact ih st1 st2 ems2 hInv1 hrest b d hmem2
    | fire now =>
      simp only [vdRunGap, vdStep, if_pos rfl] at hrun
      cases hfd : fireDebounce cfg now st with
      | mk st1 ems1 =>
        rw [hfd] at hrun
        simp only [] at hrun
        cases hrest : vdRunGap cfg gap st1 rest with
        | none => rw [hrest] at hrun; simp at hrun
        | some r =>
          obtain ⟨st2, ems2⟩ := r
          rw [hrest] at hrun
          simp only [Option.map_some'] at hrun
          obtain ⟨h1, h2⟩ := Prod.mk.inj (Option.some.inj hrun)
          rw [← h2] at hmem
          obtain ⟨hInv1, hbnd1⟩ :=
            C2_fire_step cfg gap now st st1 ems1 hInv hfd
          rcases List.mem_append.mp hmem with hmem1 | hmem2
          · exact hbnd1 b d hmem1
          · exact ih st1 st2 ems2 hInv1 hrest b d hmem2
    | cleanup =>
      simp only [vdRunGap, vdStep, if_pos rfl] at hrun
      cases hrest : vdRunGap cfg gap (cleanupVD st) rest with
      | none => rw [hrest] at hrun; simp at hrun
      | some r =>
        obtain ⟨st2, ems2⟩ := r
        rw [hrest] at hrun
        simp only [Option.map_some'] at hrun
        obtain ⟨h1, h2⟩ := Prod.mk.inj (Option.some.inj hrun)
        rw [← h2] at hmem
        simp only [List.nil_append] at hmem
        have hInv1 : C2Inv cfg gap (cleanupVD st) :=
          ⟨rfl, fun _ => rfl, fun s hs => by simp [cleanupVD] at hs,
           fun dl hdl => by simp [cleanupVD] at hdl⟩
        exact ih (cleanupVD st) st2 ems2 hInv1 hrest b d hmem

/-- A 1036-byte frame passing the RIFF/WAVE header check: the 12-byte
`RIFF....WAVE` header followed by 1024 zero bytes; its RMS is far below
any realistic silence threshold. -/
def riffFrame : List ℕ :=
  [82, 73, 70, 70, 0, 0, 0, 0, 87, 65, 86, 69] ++ List.replicate 1024 0

/-- Configuration isolating the duration bound: one frame each way flips
the classification, the minimum duration is 1 ms, the maximum 100 ms, the
debounce 5 ms. -/
def c2Config : VoiceDetectionConfig :=
  { silenceThreshold := 1
    speechThreshold := 1/4
    minSpeechDuration := 1
    maxSpeechDuration := 100
    silenceFramesRequired := 1
    speechFramesRequired := 1
    debounceThreshold := 5
    frameSize := 160
    sampleRate := 16000 }

lemma riffFrame_length : riffFrame.length = 1036 := by
  norm_num [riffFrame]

/-- Squared RMS of the two-byte sample `16384` (value `(1/2)² = 1/4`). -/
lemma calculateRMSsq_c2speech : calculateRMSsq [0, 64] = some (1/4) := by
  norm_num [calculateRMSsq, sumSquaresNorm, int16LE, rmsDivisor]

lemma sumSquaresNorm_riffFrame :
    sumSquaresNorm riffFrame = some (1270808029 / 1073741824) := by
  have hz : sumSquaresNorm (List.replicate 1024 0) = some 0 := by
    have h := sumSquaresNorm_replicate_zero 512
    norm_num at h
    exact h
  have hc : riffFrame = 82 :: 73 :: 70 :: 70 :: 0 :: 0 :: 0 :: 0 ::
      87 :: 65 :: 86 :: 69 :: List.replicate 1024 0 := rfl
  have he : ∀ (lo hi : ℕ) (rest : List ℕ), sumSquaresNorm (lo :: hi :: rest)
      = (sumSquaresNorm rest).map
          (fun s => ((int16LE lo hi : ℚ) / 32768) ^ 2 + s) :=
    fun lo hi rest => rfl
  rw [hc, he, he, he, he, he, he, hz]
  simp only [Option.map_some']
  norm_num [int16LE]

/-- Squared RMS of `riffFrame`: about `0.0023`, below any threshold of the
counterexample configuration. -/
lemma calculateRMSsq_riffFrame :
    calculateRMSsq riffFrame = some (1270808029 / 556198264832) := by
  norm_num [calculateRMSsq, rmsDivisor, riffFrame_length,
    sumSquaresNorm_riffFrame]

lemma isValidAudioBuffer_riffFrame : isValidAudioBuffer riffFrame = true := by
  rw [isValidAudioBuffer, riffFrame_length]
  rw [if_neg (by norm_num)]
  have ht : (riffFrame.take 4).map (fun x => x % 128) = [82, 73, 70, 70] := rfl
  rw [if_pos ⟨by norm_num, ht⟩]
  rfl

/-- The event timeline refuting the claimed upper bound
`maxSpeechDuration + debounceThreshold`: a speech frame at 0 ms, a silent
frame at 1 000 000 ms (within the 2 000 000 ms cadence bound), the debounce
fire 5 ms later. -/
def c2CexEvents : List VDEvent :=
  [VDEvent.frame 0 [0, 64], VDEvent.frame 1000000 riffFrame,
   VDEvent.fire 1000005]

/-- Detector state after the speech frame of the C2 counterexample. -/
def c2St1 : VDState :=
  VDState.mk
    (some (VoiceActivityState.mk true 0 0 [] 0 0 0 0)) none false

/-- Detector state after the late silent frame: silence crossing, debounce
scheduled at 1000005 ms. -/
def c2St2 : VDState :=
  VDState.mk
    (some (VoiceActivityState.mk false 0 0 [riffFrame] 1036 1000000 0 1))
    (some 1000005) false

/-- Detector state after the debounce fire. -/
def c2St3 : VDState :=
  VDState.mk
    (some (VoiceActivityState.mk false 0 0 [] 0 1000000 0 0)) none false

/-- Unfolding a cadence-checked run after a known first step. -/
lemma vdRunGap_cons_some (cfg : VoiceDetectionConfig) (gap : ℕ)
    (st : VDState) (e : VDEvent) (rest : List VDEvent) (st1 : VDState)
    (ems1 : List VDEmit)
    (hok : (match e with
      | VDEvent.frame now _ => frameGapOK gap st now
      | _ => true) = true)
    (h : vdStep cfg st e = some (st1, ems1)) :
    vdRunGap cfg gap st (e :: rest) =
      (vdRunGap cfg gap st1 rest).map (fun r2 => (r2.1, ems1 ++ r2.2)) := by
  simp only [vdRunGap, hok, if_true, h]

lemma c2_step1 :
    vdStep c2Config initialVDState (VDEvent.frame 0 [0, 64])
      = some (c2St1, [VDEmit.speechStarted]) := by
  norm_num [vdStep, processAudioFrame, calculateRMSsq_c2speech, vdDispatch,
    manageBufferSize, manageBufferLoop, handleSpeechStart,
    initParticipantState, initialVDState, c2Config, maxBufferSize, c2St1]

lemma c2_step2_param (b : List ℕ)
    (hq : calculateRMSsq b = some (1270808029 / 556198264832))
    (hlen : b.length = 1036) :
    vdStep c2Config c2St1 (VDEvent.frame 1000000 b)
      = some (VDState.mk
          (some (VoiceActivityState.mk false 0 0 [b] 1036 1000000 0 1))
          (some 1000005) false, []) := by
  norm_num [vdStep, processAudioFrame, hq, hlen, vdDispatch,
    manageBufferSize, manageBufferLoop, handlePotentialSpeechEnd,
    setupDebouncedProcessing, c2Config, maxBufferSize, c2St1]

lemma c2_step2 :
    vdStep c2Config c2St1 (VDEvent.frame 1000000 riffFrame)
      = some (c2St2, []) :=
  c2_step2_param riffFrame calculateRMSsq_riffFrame riffFrame_length

lemma c2_step3_param (b : List ℕ) (hval : isValidAudioBuffer b = true) :
    vdStep c2Config (VDState.mk
        (some (VoiceActivityState.mk false 0 0 [b] 1036 1000000 0 1))
        (some 1000005) false) (VDEvent.fire 1000005)
      = some (VDState.mk
          (some (VoiceActivityState.mk false 0 0 [] 0 1000000 0 0))
          none false,
          [VDEmit.speechEnded b, VDEmit.speechTurn b 1000005]) := by
  norm_num [vdStep, fireDebounce, processSpeechTurnVD,
    resetParticipantState, hval, c2Config]

lemma c2_step3 :
    vdStep c2Config c2St2 (VDEvent.fire 1000005)
      = some (c2St3, [VDEmit.speechEnded riffFrame,
          VDEmit.speechTurn riffFrame 1000005]) :=
  c2_step3_param riffFrame isValidAudioBuffer_riffFrame

/-- Evaluated counterexample run: the cadence-checked run (bound
2 000 000 ms) emits a turn of duration 1 000 005 ms. -/
lemma c2_run_eval :
    vdRunGap c2Config 2000000 initialVDState c2CexEvents
      = some (c2St3, [VDEmit.speechStarted, VDEmit.speechEnded riffFrame,
          VDEmit.speechTurn riffFrame 1000005]) := by
  rw [c2CexEvents]
  rw [vdRunGap_cons_some c2Config 2000000 initialVDState _ _ _ _
    (by norm_num [frameGapOK, initialVDState]) c2_step1]
  rw [vdRunGap_cons_some c2Config 2000000 c2St1 _ _ _ _
    (by norm_num [frameGapOK, c2St1]) c2_step2]
  rw [vdRunGap_cons_some c2Config 2000000 c2St2 _ _ _ _ rfl c2_step3]
  rfl

/-- **C2, counterexample.** The claimed bound
`d ≤ maxSpeechDuration + debounceThreshold` is false: with one-frame
classification flips (speech/silence thresholds `1/4` and `1`, one frame
required each way, `maxSpeechDuration = 100`, `debounceThreshold = 5`), a
speech frame at 0 ms followed by a silent frame at 1 000 000 ms and the
debounce fire at 1 000 005 ms yields a `speechTurn` of duration
1 000 005 ms, far above `100 + 5`: no frame arriving between the last
speech activity and the silence crossing means nothing bounds the elapsed
time that `processSpeechTurn` reports. -/
theorem C2_counterexample :
    (vdRunGap c2Config 2000000 initialVDState c2CexEvents).map
        (fun r => turnDurations r.2) = some [1000005] ∧
    ¬ 1000005 ≤ c2Config.maxSpeechDuration + c2Config.debounceThreshold := by
  constructor
  · rw [c2_run_eval]; rfl
  · norm_num [c2Config]

/-- **C2 (amended).** Over any cadence-checked run from the fresh detector
state — every frame arriving while the participant is speaking comes within
`gap` ms of the previous frame — every emitted `speechTurn` duration `d`
satisfies `minSpeechDuration ≤ d` and
`d ≤ maxSpeechDuration + debounceThreshold + gap`: the claimed upper bound
needs the frame-cadence slack `gap` added (see the counterexample).
Moreover a finalization whose computed duration is below
`minSpeechDuration` is discarded without any event, resetting the
participant state. -/
theorem C2_turn_duration_bounds (cfg : VoiceDetectionConfig) (gap : ℕ)
    (evs : List VDEvent) (st' : VDState) (ems : List VDEmit)
    (hrun : vdRunGap cfg gap initialVDState evs = some (st', ems)) :
    (∀ b d, VDEmit.speechTurn b d ∈ ems →
      cfg.minSpeechDuration ≤ d ∧
      d ≤ cfg.maxSpeechDuration + cfg.debounceThreshold + gap) ∧
    (∀ now s, now - s.speechStartTime < cfg.minSpeechDuration →
      processSpeechTurnVD cfg now s = (resetParticipantState s, [])) := by
  constructor
  · exact C2_run cfg gap evs initialVDState st' ems (C2Inv_initial cfg gap) hrun
  · intro now s hlt
    simp only [processSpeechTurnVD]
    rw [if_pos hlt]

/-- Witness: the amended bounds hold at the counterexample run's turn. -/
theorem C2_turn_duration_bounds_witness :
    c2Config.minSpeechDuration ≤ 1000005 ∧
    1000005 ≤ c2Config.maxSpeechDuration + c2Config.debounceThreshold
      + 2000000 :=
  (C2_turn_duration_bounds c2Config 2000000 c2CexEvents c2St3
      [VDEmit.speechStarted, VDEmit.speechEnded riffFrame,
        VDEmit.speechTurn riffFrame 1000005] c2_run_eval).1
    riffFrame 1000005 (by simp)
